import Mathlib

/-!
Shallow embedding of the configuration synchronization engine of the
`open_sync` repository (`src/backend/config_manager.py`,
`src/backend/config_targets.py`, `src/backend/models.py`).

Python dictionaries are modelled as ordered association lists (Python
dicts preserve insertion order), JSON/YAML documents as a `Json`
inductive, the filesystem as a function from paths to abstract file
states, and Python exceptions as `Except String`.
-/

namespace OpenSync

/-- A JSON (or YAML) value.  Objects are ordered association lists,
mirroring Python `dict` insertion order. -/
inductive Json where
  | null : Json
  | bool (b : Bool) : Json
  | num (n : Int) : Json
  | str (s : String) : Json
  | arr (elts : List Json) : Json
  | obj (fields : List (String × Json)) : Json

/-- A parsed document: the top-level JSON object of a config file
(`dict[str, Any]` in the source). -/
abbrev Doc := List (String × Json)

/-- First value bound to key `k` (Python `d.get(k)` / `d[k]`; keys of a
real Python dict are unique, so first-match is exact). -/
def lookupKey (fields : List (String × Json)) (k : String) : Option Json :=
  match fields.find? (fun kv => kv.1 = k) with
  | some kv => some kv.2
  | none => none

/-- Python `d[k] = v`: replace the value at `k` in place if the key is
present (dict update keeps the key position), else append the pair. -/
def setKey : List (String × Json) → String → Json → List (String × Json)
  | [], k, v => [(k, v)]
  | (k', v') :: rest, k, v =>
      if k' = k then (k, v) :: rest else (k', v') :: setKey rest k v

/-- Python `del d[k]`: remove the binding of `k` (first occurrence). -/
def delKey : List (String × Json) → String → List (String × Json)
  | [], _ => []
  | (k', v') :: rest, k => if k' = k then rest else (k', v') :: delKey rest k

/-- Whether a key is bound (Python `k in d`). -/
def containsKey (fields : List (String × Json)) (k : String) : Bool :=
  (lookupKey fields k).isSome

/-- Abstract state of one file on disk.  `parsed d` stands for a
well-formed non-empty file whose JSON/YAML parse is `d`; `invalid` for a
non-empty file that makes the parser raise. -/
inductive FileState where
  | missing : FileState
  | empty : FileState
  | invalid : FileState
  | parsed (doc : Doc) : FileState

/-- Python `Path(path).exists()` (an `empty` or `invalid` file exists). -/
def fileExists : FileState → Bool
  | .missing => false
  | _ => true

/-- The world the engine runs against: file contents per path, the
current wall-clock timestamp already formatted `%Y%m%d_%H%M%S`
(`datetime.now().strftime`), and injected I/O failures: `copyFails p`
makes `shutil.copy2` raise when copying from `p`, `writeFails p` makes
opening `p` for writing raise (permissions, disk, ...). -/
structure Fs where
  files : String → FileState
  now : String
  copyFails : String → Bool
  writeFails : String → Bool

/-- Replace the contents of one path. -/
def Fs.setFile (fs : Fs) (p : String) (st : FileState) : Fs :=
  { fs with files := fun q => if q = p then st else fs.files q }

/-! ### Target registry (`config_targets.py`) -/

/-- `FormatType` enum.  Modelled from the spec: the `YAML` member is
referenced by `config_manager.py` (`FormatType.YAML`) and documented as a
legal format tag in `integrations/base.py` ("standard | opencode |
vscode | yaml"), but the snapshot's `config_targets.FormatType` lists
only the other three members; spec section 6 states targets are "JSON or
YAML documents", so the member is restored here. -/
inductive FormatType where
  | standard : FormatType
  | opencode : FormatType
  | vscode : FormatType
  | yaml : FormatType
deriving DecidableEq

/-- `Scope` enum. -/
inductive Scope where
  | global : Scope
  | project : Scope
deriving DecidableEq

/-- `Category` enum (UI grouping only). -/
inductive Category where
  | editor : Category
  | desktop : Category
  | cli : Category
  | plugin : Category
deriving DecidableEq

/-- `TargetConfig` dataclass. -/
structure TargetConfig where
  name : String
  display_name : String
  config_path : String
  root_key : String
  scope : Scope := .global
  format_type : FormatType := .standard
  color : String := "#888888"
  nested : Bool := false
  base_target : String := ""
  category : Category := .editor
deriving DecidableEq

/-- Home directory used by `os.path.expanduser`; the engine's behaviour
never depends on its value. -/
def homeDir : String := "/home/user"

/-- `str.startswith`, written over the character list so that it
evaluates inside the kernel. -/
def strStartsWith (s p : String) : Bool :=
  decide (s.data.take p.data.length = p.data)

/-- `str.endswith`, written over the character list. -/
def strEndsWith (s p : String) : Bool :=
  decide (s.data.drop (s.data.length - p.data.length) = p.data)

/-- Drop the first `n` characters. -/
def strDrop (s : String) (n : Nat) : String := String.mk (s.data.drop n)

/-- `os.path.expanduser`: replace a leading `~` with the home directory. -/
def expanduser (p : String) : String :=
  if strStartsWith p "~" then homeDir ++ strDrop p 1 else p

/-- `os.path.join a b` for the shapes the engine uses (`b` absolute wins,
otherwise join with a single separator). -/
def osJoin (a b : String) : String :=
  if strStartsWith b "/" then b
  else if a = "" then b
  else if strEndsWith a "/" then a ++ b
  else a ++ "/" ++ b

/-- `TargetConfig.resolved_path` property. -/
def TargetConfig.resolved_path (t : TargetConfig) : String :=
  expanduser t.config_path

/-- `TargetConfig.resolve_for_project`. -/
def TargetConfig.resolve_for_project (t : TargetConfig) (project_dir : String) : String :=
  if t.scope = .project then osJoin project_dir t.config_path else t.resolved_path

/-- `GLOBAL_TARGETS` list, in source order. -/
def GLOBAL_TARGETS : List TargetConfig := [
  { name := "claude_desktop_global", display_name := "Claude Desktop",
    config_path := "~/Library/Application Support/Claude/claude_desktop_config.json",
    root_key := "mcpServers", scope := .global, color := "#D97757",
    base_target := "claude_desktop", category := .desktop },
  { name := "claude_code_global", display_name := "Claude Code",
    config_path := "~/.claude.json", root_key := "mcpServers", scope := .global,
    color := "#D97757", base_target := "claude_code", category := .cli },
  { name := "antigravity_global", display_name := "Antigravity",
    config_path := "~/.gemini/antigravity/mcp_config.json", root_key := "mcpServers",
    scope := .global, color := "#4285F4", base_target := "antigravity" },
  { name := "vscode_global", display_name := "VS Code",
    config_path := "~/Library/Application Support/Code/User/mcp.json",
    root_key := "servers", format_type := .vscode, scope := .global,
    color := "#007ACC", base_target := "vscode" },
  { name := "cursor_global", display_name := "Cursor",
    config_path := "~/.cursor/mcp.json", root_key := "mcpServers", scope := .global,
    color := "#00D4AA", base_target := "cursor" },
  { name := "gemini_cli_global", display_name := "Gemini CLI",
    config_path := "~/.gemini/settings.json", root_key := "mcpServers",
    scope := .global, color := "#0F9D58", nested := true,
    base_target := "gemini_cli", category := .cli },
  { name := "opencode_global", display_name := "OpenCode",
    config_path := "~/.config/opencode/opencode.json", root_key := "mcp",
    format_type := .opencode, scope := .global, color := "#FF6B6B", nested := true,
    base_target := "opencode", category := .cli },
  { name := "copilot_cli_global", display_name := "GitHub Copilot CLI",
    config_path := "~/.copilot/mcp-config.json", root_key := "mcpServers",
    scope := .global, color := "#6E40C9", base_target := "copilot_cli",
    category := .cli },
  { name := "jetbrains_global", display_name := "JetBrains (Copilot)",
    config_path := "~/.config/github-copilot/intellij/mcp.json",
    root_key := "mcpServers", scope := .global, color := "#FC801D",
    base_target := "jetbrains" },
  { name := "cline_vscode_global", display_name := "Cline (VS Code)",
    config_path := "~/Library/Application Support/Code/User/globalStorage/saoudrizwan.claude-dev/settings/cline_mcp_settings.json",
    root_key := "mcpServers", scope := .global, color := "#E8912D",
    base_target := "cline_vscode", category := .plugin },
  { name := "roocode_vscode_global", display_name := "Roo Code (VS Code)",
    config_path := "~/Library/Application Support/Code/User/globalStorage/rooveterinaryinc.roo-cline/settings/cline_mcp_settings.json",
    root_key := "mcpServers", scope := .global, color := "#00C853",
    base_target := "roocode_vscode", category := .plugin },
  { name := "roocode_antigravity_global", display_name := "Roo Code (Antigravity)",
    config_path := "~/Library/Application Support/Antigravity/User/globalStorage/rooveterinaryinc.roo-cline/settings/cline_mcp_settings.json",
    root_key := "mcpServers", scope := .global, color := "#00C853",
    base_target := "roocode_antigravity", category := .plugin },
  { name := "kilocode_vscode_global", display_name := "Kilo Code (VS Code)",
    config_path := "~/Library/Application Support/Code/User/globalStorage/kilocode.kilo-code/settings/cline_mcp_settings.json",
    root_key := "mcpServers", scope := .global, color := "#FF4081",
    base_target := "kilocode_vscode", category := .plugin }]

/-- `PROJECT_TARGETS` list, in source order. -/
def PROJECT_TARGETS : List TargetConfig := [
  { name := "claude_code_project", display_name := "Claude Code",
    config_path := ".mcp.json", root_key := "mcpServers", scope := .project,
    color := "#D97757", base_target := "claude_code", category := .cli },
  { name := "antigravity_project", display_name := "Antigravity",
    config_path := ".antigravity/mcp_config.json", root_key := "mcpServers",
    scope := .project, color := "#4285F4", base_target := "antigravity" },
  { name := "vscode_project", display_name := "VS Code",
    config_path := ".vscode/mcp.json", root_key := "servers",
    format_type := .vscode, scope := .project, color := "#007ACC",
    base_target := "vscode" },
  { name := "cursor_project", display_name := "Cursor",
    config_path := ".cursor/mcp.json", root_key := "mcpServers", scope := .project,
    color := "#00D4AA", base_target := "cursor" },
  { name := "gemini_cli_project", display_name := "Gemini CLI",
    config_path := ".gemini/settings.json", root_key := "mcpServers",
    scope := .project, color := "#0F9D58", nested := true,
    base_target := "gemini_cli", category := .cli },
  { name := "opencode_project", display_name := "OpenCode",
    config_path := "opencode.json", root_key := "mcp", format_type := .opencode,
    scope := .project, color := "#FF6B6B", nested := true,
    base_target := "opencode", category := .cli },
  { name := "copilot_cli_project", display_name := "GitHub Copilot CLI",
    config_path := ".copilot/mcp-config.json", root_key := "mcpServers",
    scope := .project, color := "#6E40C9", base_target := "copilot_cli",
    category := .cli },
  { name := "roocode_vscode_project", display_name := "Roo Code (VS Code)",
    config_path := ".roo/mcp.json", root_key := "mcpServers", scope := .project,
    color := "#00C853", base_target := "roocode_vscode", category := .plugin },
  { name := "roocode_antigravity_project", display_name := "Roo Code (Antigravity)",
    config_path := ".roo/mcp.json", root_key := "mcpServers", scope := .project,
    color := "#00C853", base_target := "roocode_antigravity", category := .plugin },
  { name := "kilocode_vscode_project", display_name := "Kilo Code (VS Code)",
    config_path := ".kilocode/mcp.json", root_key := "mcpServers", scope := .project,
    color := "#FF4081", base_target := "kilocode_vscode", category := .plugin }]

/-- `ALL_TARGETS = GLOBAL_TARGETS + PROJECT_TARGETS`. -/
def ALL_TARGETS : List TargetConfig := GLOBAL_TARGETS ++ PROJECT_TARGETS

/-- `get_target`: look up a target by internal name. -/
def get_target (name : String) : Option TargetConfig :=
  ALL_TARGETS.find? (fun t => t.name = name)

/-- `get_targets_by_scope`: targets filtered by scope, in registry order. -/
def get_targets_by_scope (scope : Scope) : List TargetConfig :=
  ALL_TARGETS.filter (fun t => t.scope = scope)

/-! ### Canonical model (`models.py`) -/

/-- `McpServer` pydantic model (canonical server record). -/
structure McpServer where
  id : Option String := none
  name : String
  command : Option String := none
  args : List String := []
  env : List (String × String) := []
  type : Option String := none
  url : Option String := none
  headers : List (String × String) := []
  sources : List String := []
deriving DecidableEq

/-- `SyncResult` pydantic model. -/
structure SyncResult where
  target : String
  success : Bool
  message : String
  servers_written : List String := []
deriving DecidableEq

/-- Python truthiness of an `Optional[str]` (`None` and `""` are falsy). -/
def truthy : Option String → Bool
  | some s => s ≠ ""
  | none => false

/-- Index of the last occurrence of a character. -/
def lastIdxOf (c : Char) : List Char → Option Nat
  | [] => none
  | x :: xs =>
    match lastIdxOf c xs with
    | some i => some (i + 1)
    | none => if x = c then some 0 else none

/-- Python `Path(path).with_suffix(suffix)`: replace the extension of the
final path component (the part from its last dot `i` with `0 < i <
len(name) - 1`) by `suffix`, or append `suffix` when there is none. -/
def pyWithSuffix (path : String) (suffix : String) : String :=
  let cs := path.toList
  let nameStart : Nat :=
    match lastIdxOf '/' cs with
    | some i => i + 1
    | none => 0
  let dir := cs.take nameStart
  let name := cs.drop nameStart
  let stemLen : Nat :=
    match lastIdxOf '.' name with
    | some i => if 0 < i ∧ i < name.length - 1 then i else name.length
    | none => name.length
  String.mk (dir ++ name.take stemLen) ++ suffix

/-! ### File helpers (`config_manager.py`) -/

/-- `_read_json`: `{}` when missing or empty, raise (`json.load`) when
unparsable, the parsed document otherwise. -/
def _read_json (fs : Fs) (path : String) : Except String Doc :=
  match fs.files path with
  | .missing => .ok []
  | .empty => .ok []
  | .invalid => .error "Expecting value"
  | .parsed d => .ok d

/-- `_read_yaml`: same observable behaviour on the abstract file states
(`safe_load` raises on an unparsable file; `or {}` turns a null document
into `{}`, covered by `FileState.empty`).  PyYAML is modelled as
installed. -/
def _read_yaml (fs : Fs) (path : String) : Except String Doc :=
  match fs.files path with
  | .missing => .ok []
  | .empty => .ok []
  | .invalid => .error "could not determine a constructor"
  | .parsed d => .ok d

/-- `_write_json` (parent-directory creation is a no-op in this model;
`writeFails` injects the filesystem errors open/dump can raise). -/
def _write_json (fs : Fs) (path : String) (data : Doc) : Except String Fs :=
  if fs.writeFails path then .error "write failed"
  else .ok (fs.setFile path (.parsed data))

/-- `_write_yaml` (PyYAML modelled as installed, so no `RuntimeError`). -/
def _write_yaml (fs : Fs) (path : String) (data : Doc) : Except String Fs :=
  if fs.writeFails path then .error "write failed"
  else .ok (fs.setFile path (.parsed data))

/-- `_read_config`. -/
def _read_config (fs : Fs) (path : String) (is_yaml : Bool) : Except String Doc :=
  if is_yaml then _read_yaml fs path else _read_json fs path

/-- `_write_config`. -/
def _write_config (fs : Fs) (path : String) (data : Doc) (is_yaml : Bool) :
    Except String Fs :=
  if is_yaml then _write_yaml fs path data else _write_json fs path data

/-! ### Field extraction (pydantic validation of `McpServer(...)`) -/

/-- `entry.get(k)` validated as `Optional[str]`: absent or JSON null give
`None`; a string passes; anything else raises `ValidationError`. -/
def getOptStrField (fields : List (String × Json)) (k : String) :
    Except String (Option String) :=
  match lookupKey fields k with
  | none => .ok none
  | some .null => .ok none
  | some (.str s) => .ok (some s)
  | some _ => .error ("validation error: " ++ k)

/-- All-strings view of a JSON array (`list[str]` validation). -/
def strListOfJson : List Json → Except String (List String)
  | [] => .ok []
  | .str s :: rest => (strListOfJson rest).map (fun l => s :: l)
  | _ :: _ => .error "validation error: str expected"

/-- `entry.get(k, [])` validated as `list[str]`. -/
def getStrListField (fields : List (String × Json)) (k : String) :
    Except String (List String) :=
  match lookupKey fields k with
  | none => .ok []
  | some (.arr xs) => strListOfJson xs
  | some _ => .error ("validation error: " ++ k)

/-- All-string-valued view of a JSON object (`dict[str, str]` validation). -/
def strMapOfJson : List (String × Json) → Except String (List (String × String))
  | [] => .ok []
  | (key, .str s) :: rest => (strMapOfJson rest).map (fun l => (key, s) :: l)
  | _ :: _ => .error "validation error: str expected"

/-- `entry.get(k, {})` validated as `dict[str, str]`. -/
def getStrMapField (fields : List (String × Json)) (k : String) :
    Except String (List (String × String)) :=
  match lookupKey fields k with
  | none => .ok []
  | some (.obj kvs) => strMapOfJson kvs
  | some _ => .error ("validation error: " ++ k)

/-- String-to-string mapping rendered back to JSON. -/
def strMapJson (m : List (String × String)) : Json :=
  .obj (m.map (fun kv => (kv.1, Json.str kv.2)))

/-! ### Format conversion (`_to_canonical` / `_from_canonical`) -/

/-- `_to_canonical`: convert a target-specific entry to the canonical
`McpServer`.  An ill-typed field makes the pydantic construction raise,
modelled by the `Except` error. -/
def _to_canonical (name : String) (entry : List (String × Json))
    (target : TargetConfig) : Except String McpServer :=
  if target.format_type = .opencode then do
    -- OpenCode: command is array, env key is "environment"
    let cmd_list ← getStrListField entry "command"
    let type ← getOptStrField entry "type"
    let url ← getOptStrField entry "url"
    let env ← getStrMapField entry "environment"
    let headers ← getStrMapField entry "headers"
    .ok { name := name, command := cmd_list.head?, args := cmd_list.tail,
          env := env, type := type, url := url, headers := headers,
          sources := [target.name] }
  else do
    -- Standard / VS Code
    let command ← getOptStrField entry "command"
    let args ← getStrListField entry "args"
    let env ← getStrMapField entry "env"
    let type ← getOptStrField entry "type"
    let url ← getOptStrField entry "url"
    let headers ← getStrMapField entry "headers"
    .ok { name := name, command := command, args := args, env := env,
          type := type, url := url, headers := headers,
          sources := [target.name] }

/-- OpenCode local branch of `_from_canonical` (`type: "local"`, array
command, `environment`). -/
def opencodeLocalEntry (server : McpServer) : List (String × Json) :=
  let cmd_array : List String :=
    (match server.command with
     | some c => if c ≠ "" then [c] else []
     | none => []) ++ server.args
  [("type", Json.str "local"), ("command", Json.arr (cmd_array.map Json.str))] ++
    (if server.env ≠ [] then [("environment", strMapJson server.env)] else [])

/-- OpenCode remote branch of `_from_canonical`. -/
def opencodeRemoteEntry (server : McpServer) (u : String) : List (String × Json) :=
  [("type", Json.str "remote"), ("url", Json.str u)] ++
    (if server.headers ≠ [] then [("headers", strMapJson server.headers)] else [])

/-- VS Code local branch of `_from_canonical`. -/
def vscodeLocalEntry (server : McpServer) : List (String × Json) :=
  (match server.command with
   | some c => if c ≠ "" then [("command", Json.str c)] else []
   | none => []) ++
  (if server.args ≠ [] then [("args", Json.arr (server.args.map Json.str))] else []) ++
  (if server.env ≠ [] then [("env", strMapJson server.env)] else [])

/-- VS Code remote branch of `_from_canonical` (`server.type or "http"`). -/
def vscodeRemoteEntry (server : McpServer) (u : String) : List (String × Json) :=
  [("type", Json.str (match server.type with
     | some t => if t ≠ "" then t else "http"
     | none => "http")),
   ("url", Json.str u)] ++
    (if server.headers ≠ [] then [("headers", strMapJson server.headers)] else [])

/-- Standard local branch of `_from_canonical` (a `stdio` type is only
emitted when explicitly `stdio`). -/
def standardLocalEntry (server : McpServer) : List (String × Json) :=
  (match server.command with
   | some c => if c ≠ "" then [("command", Json.str c)] else []
   | none => []) ++
  (if server.args ≠ [] then [("args", Json.arr (server.args.map Json.str))] else []) ++
  (if server.env ≠ [] then [("env", strMapJson server.env)] else []) ++
  (if server.type = some "stdio" then [("type", Json.str "stdio")] else [])

/-- Standard remote branch of `_from_canonical`: the `npx mcp-remote`
bridge.  The source guards the header loop with `if server.headers:`,
which is a no-op for an empty mapping, so the fold alone is exact. -/
def standardRemoteEntry (u : String) (headers : List (String × String)) :
    List (String × Json) :=
  let args : List String :=
    headers.foldl (fun args kv => args ++ ["--header", kv.1 ++ ": " ++ kv.2])
      ["mcp-remote", u]
  [("command", Json.str "npx"), ("args", Json.arr (args.map Json.str))]

/-- `_from_canonical`: canonical record to target-specific entry.  The
final branch is the source's fallthrough for every non-OpenCode,
non-VS-Code format. -/
def _from_canonical (server : McpServer) (target : TargetConfig) :
    List (String × Json) :=
  if target.format_type = .opencode then
    match server.url with
    | some u => if u ≠ "" then opencodeRemoteEntry server u else opencodeLocalEntry server
    | none => opencodeLocalEntry server
  else if target.format_type = .vscode then
    match server.url with
    | some u => if u ≠ "" then vscodeRemoteEntry server u else vscodeLocalEntry server
    | none => vscodeLocalEntry server
  else
    match server.url with
    | some u => if u ≠ "" then standardRemoteEntry u server.headers else standardLocalEntry server
    | none => standardLocalEntry server

/-! ### Read / discovery -/

/-- `_resolve_path` (`project_dir` must be truthy, i.e. non-empty, for
the project branch to apply). -/
def _resolve_path (target : TargetConfig) (project_dir : Option String) : String :=
  match project_dir with
  | some pd =>
    if target.scope = .project ∧ pd ≠ "" then target.resolve_for_project pd
    else target.resolved_path
  | none => target.resolved_path

/-- The dict comprehension of `read_target_servers`: decode every entry
whose value is a dict (`isinstance(entry, dict)`), skipping the rest;
the first decode failure raises. -/
def decodeEntries (target : TargetConfig) :
    List (String × Json) → Except String (List (String × McpServer))
  | [] => .ok []
  | (nm, Json.obj fields) :: rest => do
      let srv ← _to_canonical nm fields target
      let tail ← decodeEntries target rest
      .ok ((nm, srv) :: tail)
  | _ :: rest => decodeEntries target rest

/-- `read_target_servers`: read all MCP servers from one target config
file.  A non-dict value under the root key makes `.items()` raise. -/
def read_target_servers (fs : Fs) (target : TargetConfig)
    (project_dir : Option String) : Except String (List (String × McpServer)) := do
  let path := _resolve_path target project_dir
  let is_yaml : Bool := decide (target.format_type = FormatType.yaml)
  let data ← _read_config fs path is_yaml
  let raw_servers ← (match lookupKey data target.root_key with
    | none => Except.ok []
    | some (Json.obj fields) => Except.ok fields
    | some _ => Except.error "AttributeError: items")
  decodeEntries target raw_servers

/-- First record bound to a name in an accumulator / discovery result. -/
def lookupServer (m : List (String × McpServer)) (nm : String) : Option McpServer :=
  match m.find? (fun kv => kv.1 = nm) with
  | some kv => some kv.2
  | none => none

/-- Whether a name is bound in an accumulator / discovery result. -/
def containsServer (m : List (String × McpServer)) (nm : String) : Bool :=
  (lookupServer m nm).isSome

/-- In-place update of the record bound to `nm` (first binding). -/
def updateServer (m : List (String × McpServer)) (nm : String)
    (f : McpServer → McpServer) : List (String × McpServer) :=
  match m with
  | [] => []
  | (k, v) :: rest =>
    if k = nm then (k, f v) :: rest else (k, v) :: updateServer rest nm f

/-- The inner source-accumulation loop of `discover_all_servers`: append
each new source id to the existing record's `sources` unless already
present. -/
def mergeSources (sources : List String) (new : List String) : List String :=
  new.foldl (fun acc src => if src ∈ acc then acc else acc ++ [src]) sources

/-- One `name, srv` step of the merge loop of `discover_all_servers`:
first writer wins, later duplicates only contribute their source ids. -/
def mergeOne (merged : List (String × McpServer)) (nm : String) (srv : McpServer) :
    List (String × McpServer) :=
  match lookupServer merged nm with
  | some _ =>
      updateServer merged nm
        (fun ex => { ex with sources := mergeSources ex.sources srv.sources })
  | none => merged ++ [(nm, srv)]

/-- Fold one target's decoded servers into the accumulator. -/
def mergeInto (merged : List (String × McpServer))
    (servers : List (String × McpServer)) : List (String × McpServer) :=
  servers.foldl (fun m kv => mergeOne m kv.1 kv.2) merged

/-- The target-scan loop of `discover_all_servers` over an explicit
target list: a read failure for one target is swallowed and the target
skipped. -/
def discoverTargets (fs : Fs) (targets : List TargetConfig)
    (project_dir : Option String) : List (String × McpServer) :=
  targets.foldl (fun merged target =>
    match read_target_servers fs target project_dir with
    | .error _ => merged
    | .ok servers => mergeInto merged servers) []

/-- `discover_all_servers`: scan the scope's targets in registry order
and build the deduplicated, source-attributed collection. -/
def discover_all_servers (fs : Fs) (scope : Scope)
    (project_dir : Option String) : List (String × McpServer) :=
  discoverTargets fs (get_targets_by_scope scope) project_dir

/-! ### Write / backup / remove / sync -/

/-- `backup_config`: timestamped copy of the target's file, `none` when
the file does not exist; `shutil.copy2` failures are injected via
`copyFails` and raise. -/
def backup_config (target : TargetConfig) (project_dir : Option String)
    (fs : Fs) : Except String (Option String) × Fs :=
  let path := _resolve_path target project_dir
  if fileExists (fs.files path) = false then (.ok none, fs)
  else
    let backup_path := pyWithSuffix path (".bak." ++ fs.now)
    if fs.copyFails path then (.error "copy failed", fs)
    else (.ok (some backup_path), fs.setFile backup_path (fs.files path))

/-- The upsert loop of `write_servers_to_target`:
`server_entries = existing.get(root_key, {})`, per-record
`server_entries[srv.name] = _from_canonical(srv, target)`, then
`existing[root_key] = server_entries`.  When the existing root value is
not a dict, the first item assignment raises `TypeError`; with no
records to write the unchanged value is written back. -/
def upsertServers (existing : Doc) (target : TargetConfig)
    (servers : List McpServer) : Except String Doc :=
  match lookupKey existing target.root_key with
  | some (Json.obj fields) =>
      .ok (setKey existing target.root_key (Json.obj
        (servers.foldl
          (fun es srv => setKey es srv.name (Json.obj (_from_canonical srv target)))
          fields)))
  | none =>
      .ok (setKey existing target.root_key (Json.obj
        (servers.foldl
          (fun es srv => setKey es srv.name (Json.obj (_from_canonical srv target)))
          [])))
  | some v =>
      if servers.isEmpty then .ok (setKey existing target.root_key v)
      else .error "TypeError: item assignment"

/-- `write_servers_to_target`: merge the given servers into a target's
config file; every exception inside the `try` block becomes a failed
`SyncResult`. -/
def write_servers_to_target (target : TargetConfig) (servers : List McpServer)
    (create_backup : Bool) (project_dir : Option String) (fs : Fs) :
    SyncResult × Fs :=
  let path := _resolve_path target project_dir
  let is_yaml : Bool := decide (target.format_type = FormatType.yaml)
  let failResult := fun (e : String) (fs1 : Fs) =>
    ({ target := target.name, success := false,
       message := "Error writing to " ++ target.display_name ++ ": " ++ e,
       servers_written := [] }, fs1)
  match (if create_backup then backup_config target project_dir fs
         else (.ok none, fs)) with
  | (.error e, fs1) => failResult e fs1
  | (.ok _, fs1) =>
    match _read_config fs1 path is_yaml with
    | .error e => failResult e fs1
    | .ok existing =>
      match upsertServers existing target servers with
      | .error e => failResult e fs1
      | .ok updated =>
        match _write_config fs1 path updated is_yaml with
        | .error e => failResult e fs1
        | .ok fs2 =>
          ({ target := target.name, success := true,
             message := "Wrote " ++ toString servers.length ++ " server(s) to "
               ++ target.display_name,
             servers_written := servers.map (fun s => s.name) }, fs2)

/-- `remove_server_from_target`: delete one server by name; absence is a
success ("not found").  A non-mapping root value makes the deletion
raise for the shapes exercised here, modelled as an error. -/
def remove_server_from_target (target : TargetConfig) (server_name : String)
    (project_dir : Option String) (fs : Fs) : SyncResult × Fs :=
  let path := _resolve_path target project_dir
  let is_yaml : Bool := decide (target.format_type = FormatType.yaml)
  let failResult := fun (e : String) (fs1 : Fs) =>
    ({ target := target.name, success := false,
       message := "Error removing from " ++ target.display_name ++ ": " ++ e,
       servers_written := [] }, fs1)
  let notFound : SyncResult :=
    { target := target.name, success := true,
      message := "Server '" ++ server_name ++ "' not found in "
        ++ target.display_name,
      servers_written := [] }
  match _read_config fs path is_yaml with
  | .error e => failResult e fs
  | .ok data =>
    match lookupKey data target.root_key with
    | none => (notFound, fs)
    | some (Json.obj servers) =>
      if containsKey servers server_name = false then (notFound, fs)
      else
        let servers1 := delKey servers server_name
        let data1 := setKey data target.root_key (Json.obj servers1)
        match _write_config fs path data1 is_yaml with
        | .error e => failResult e fs
        | .ok fs2 =>
          ({ target := target.name, success := true,
             message := "Removed '" ++ server_name ++ "' from "
               ++ target.display_name,
             servers_written := [] }, fs2)
    | some _ => failResult "TypeError" fs

/-- The per-target loop of `sync_servers`.  An unknown target id yields a
failed result and the loop continues; a `backup_config` exception is
raised at the `sync_servers` level (it is not inside any `try`) and
aborts the batch. -/
def syncLoop (servers_to_sync : List McpServer) (project_dir : Option String) :
    List String → Fs → Except String (List SyncResult × List (String × String) × Fs)
  | [], fs => .ok ([], [], fs)
  | tname :: rest, fs =>
    match get_target tname with
    | none =>
      match syncLoop servers_to_sync project_dir rest fs with
      | .error e => .error e
      | .ok (results, backups, fs1) =>
        .ok (({ target := tname, success := false,
                message := "Unknown target: " ++ tname,
                servers_written := [] } : SyncResult) :: results, backups, fs1)
    | some target =>
      match backup_config target project_dir fs with
      | (.error e, _) => .error e
      | (.ok bp, fs1) =>
        let step := write_servers_to_target target servers_to_sync false project_dir fs1
        match syncLoop servers_to_sync project_dir rest step.2 with
        | .error e => .error e
        | .ok (results, backups, fs3) =>
          .ok (step.1 :: results,
               (match bp with
                | some p => (tname, p) :: backups
                | none => backups), fs3)

/-- `sync_servers`: requested names absent from discovery are dropped,
then each requested target is processed in order. -/
def sync_servers (server_names : List String) (target_names : List String)
    (scope : Scope) (project_dir : Option String) (fs : Fs) :
    Except String (List SyncResult × List (String × String) × Fs) :=
  let all_servers := discover_all_servers fs scope project_dir
  let servers_to_sync := server_names.filterMap (fun n => lookupServer all_servers n)
  syncLoop servers_to_sync project_dir target_names fs

/-! ### Basic lemmas -/

@[simp] theorem lookupKey_nil (k : String) : lookupKey [] k = none := rfl

@[simp] theorem lookupKey_cons (k' : String) (v : Json) (rest : List (String × Json))
    (k : String) :
    lookupKey ((k', v) :: rest) k = if k' = k then some v else lookupKey rest k := by
  by_cases h : k' = k <;> simp [lookupKey, List.find?, h]

theorem strListOfJson_map_str (l : List String) :
    strListOfJson (l.map Json.str) = .ok l := by
  induction l with
  | nil => rfl
  | cons x xs ih => simp [strListOfJson, ih, Except.map]

theorem strMapOfJson_map_str (m : List (String × String)) :
    strMapOfJson (m.map (fun kv => (kv.1, Json.str kv.2))) = .ok m := by
  induction m with
  | nil => rfl
  | cons kv rest ih => simp [strMapOfJson, ih, Except.map]

/-- A fixture target in the Standard dialect, mirroring the test suite's
`test_target`. -/
def demoTarget : TargetConfig :=
  { name := "test_target", display_name := "Test Target",
    config_path := "/tmp/test-target.json", root_key := "mcpServers" }

/-- The bridge's header loop, rephrased: folding the append steps equals
one flat list of `--header` pairs in mapping order. -/
theorem headerArgs_eq (l : List (String × String)) (init : List String) :
    l.foldl (fun args kv => args ++ ["--header", kv.1 ++ ": " ++ kv.2]) init
      = init ++ l.flatMap (fun kv => ["--header", kv.1 ++ ": " ++ kv.2]) := by
  induction l generalizing init with
  | nil => simp
  | cons kv rest ih => simp [List.foldl, ih]

/-! ### C6: Standard-dialect round trip -/

/-- C6 (counterexample): the claim "decoding the encoding of `r` yields a
record equal to `r` on all of command, args, env and type" fails as
stated.  At `r = {name := "s", type := some "http"}` (url and headers
empty) the Standard encoder drops the non-`stdio` type, so the decoded
type is `none`; at `r = {name := "s", command := some ""}` the falsy
empty-string command is dropped, so the decoded command is `none`. -/
theorem c6_counterexample :
    ((_to_canonical "s" (_from_canonical { name := "s", type := some "http" } demoTarget)
        demoTarget).toOption.map (fun r => r.type) = some none)
  ∧ (({ name := "s", type := some "http" } : McpServer).type = some "http")
  ∧ ((_to_canonical "s" (_from_canonical { name := "s", command := some "" } demoTarget)
        demoTarget).toOption.map (fun r => r.command) = some none)
  ∧ (({ name := "s", command := some "" } : McpServer).command = some "") :=
  ⟨rfl, rfl, rfl, rfl⟩

/-- C6 (amended): for a Standard-dialect target, for every record `r`
with url empty and headers empty whose `type` is unset or exactly
`"stdio"` and whose `command` is not the empty string, decoding the
encoding of `r` under `r`'s name yields a record equal to `r` on
command, args, env and type. -/
theorem c6_standard_roundtrip (t : TargetConfig) (ht : t.format_type = .standard)
    (r : McpServer) (hurl : truthy r.url = false) (hhd : r.headers = [])
    (htype : r.type = none ∨ r.type = some "stdio") (hcmd : r.command ≠ some "") :
    ∃ r', _to_canonical r.name (_from_canonical r t) t = .ok r' ∧
      r'.command = r.command ∧ r'.args = r.args ∧ r'.env = r.env ∧ r'.type = r.type := by
  have henc : _from_canonical r t = standardLocalEntry r := by
    unfold _from_canonical
    rw [ht]
    cases hu : r.url with
    | none => simp
    | some u =>
      simp only [truthy, hu] at hurl
      simp at hurl
      simp [hurl]
  rw [henc]
  unfold _to_canonical
  rw [ht]
  unfold standardLocalEntry
  rcases hc : r.command with _ | c
  · by_cases ha : r.args = [] <;> by_cases he : r.env = [] <;> rcases htype with hty | hty <;>
      simp [ha, he, hty, hhd, getOptStrField, getStrListField, getStrMapField,
        strListOfJson_map_str, strMapOfJson_map_str, strMapJson, Bind.bind, Except.bind]
  · have hcne : c ≠ "" := by
      intro h; exact hcmd (by rw [hc, h])
    by_cases ha : r.args = [] <;> by_cases he : r.env = [] <;> rcases htype with hty | hty <;>
      simp [ha, he, hty, hhd, hcne, getOptStrField, getStrListField, getStrMapField,
        strListOfJson_map_str, strMapOfJson_map_str, strMapJson, Bind.bind, Except.bind]

/-- Concrete record for the C6 witness. -/
def c6Rec : McpServer :=
  { name := "demo", command := some "uvx", args := ["pkg"], env := [("K", "V")],
    type := some "stdio" }

/-- C6 (witness): the amended round trip evaluated at a concrete record. -/
theorem c6_witness :
    (demoTarget.format_type = FormatType.standard)
  ∧ (truthy c6Rec.url = false) ∧ (c6Rec.headers = [])
  ∧ (c6Rec.type = none ∨ c6Rec.type = some "stdio") ∧ (c6Rec.command ≠ some "")
  ∧ (∃ r', _to_canonical c6Rec.name (_from_canonical c6Rec demoTarget) demoTarget = .ok r'
      ∧ r'.command = c6Rec.command ∧ r'.args = c6Rec.args ∧ r'.env = c6Rec.env
      ∧ r'.type = c6Rec.type) :=
  ⟨rfl, rfl, rfl, Or.inr rfl, by simp [c6Rec],
    c6_standard_roundtrip demoTarget rfl c6Rec rfl rfl (Or.inr rfl) (by simp [c6Rec])⟩

/-! ### C7: the write-only mcp-remote bridge -/

/-- C7: encoding a record with a non-empty url under a Standard
(stdio-only, bridged) target yields exactly
`{command: "npx", args: ["mcp-remote", url, "--header", "K: V", ...]}`
with one `--header` pair per header entry in mapping order and no url,
headers or type field; decoding that entry back yields a local-looking
record with command `"npx"`, empty url and empty headers. -/
theorem c7_bridge_encoding (t : TargetConfig) (ht : t.format_type = .standard)
    (r : McpServer) (u : String) (hu : r.url = some u) (hune : u ≠ "") (nm : String) :
    _from_canonical r t =
      [("command", Json.str "npx"),
       ("args", Json.arr ((["mcp-remote", u] ++
         r.headers.flatMap (fun kv => ["--header", kv.1 ++ ": " ++ kv.2])).map Json.str))]
  ∧ lookupKey (_from_canonical r t) "url" = none
  ∧ lookupKey (_from_canonical r t) "headers" = none
  ∧ lookupKey (_from_canonical r t) "type" = none
  ∧ ∃ r', _to_canonical nm (_from_canonical r t) t = .ok r'
      ∧ r'.command = some "npx" ∧ r'.url = none ∧ r'.headers = [] := by
  have henc : _from_canonical r t =
      [("command", Json.str "npx"),
       ("args", Json.arr ((["mcp-remote", u] ++
         r.headers.flatMap (fun kv => ["--header", kv.1 ++ ": " ++ kv.2])).map Json.str))] := by
    unfold _from_canonical
    rw [ht]
    simp [hu, hune, standardRemoteEntry, headerArgs_eq]
  refine ⟨henc, ?_, ?_, ?_, ?_⟩
  · rw [henc]; simp
  · rw [henc]; simp
  · rw [henc]; simp
  · rw [henc]
    unfold _to_canonical
    rw [ht]
    simp [getOptStrField, getStrListField, getStrMapField, strListOfJson,
      strListOfJson_map_str, Except.map, Bind.bind, Except.bind]

/-- Concrete record for the C7 witness: the spec's own example
`{url: "https://x", headers: {"A": "B"}}`. -/
def c7Rec : McpServer := { name := "s", url := some "https://x", headers := [("A", "B")] }

/-! ### C4: idempotent removal -/

/-- C4: for every target and server name not present under the target's
root-key mapping (including a missing or empty file, whose read yields
the empty document), `remove` returns `success = true` ("not found"),
raises nothing, and leaves the filesystem untouched. -/
theorem c4_remove_absent (target : TargetConfig) (server_name : String)
    (pd : Option String) (fs : Fs) (data : Doc)
    (hread : _read_config fs (_resolve_path target pd)
        (decide (target.format_type = FormatType.yaml)) = .ok data)
    (habsent : lookupKey data target.root_key = none
       ∨ ∃ entries, lookupKey data target.root_key = some (Json.obj entries)
           ∧ containsKey entries server_name = false) :
    remove_server_from_target target server_name pd fs =
      ({ target := target.name, success := true,
         message := "Server '" ++ server_name ++ "' not found in " ++ target.display_name,
         servers_written := [] }, fs) := by
  simp only [remove_server_from_target]
  rw [hread]
  dsimp only
  rcases habsent with h | ⟨entries, h, hc⟩
  · rw [h]
  · rw [h]
    dsimp only
    rw [hc]
    simp

/-- A filesystem with no files at all. -/
def emptyFs : Fs :=
  { files := fun _ => FileState.missing, now := "20240101_120000",
    copyFails := fun _ => false, writeFails := fun _ => false }

/-- C4 (witness): removing a nonexistent server from a missing file
succeeds with the "not found" message. -/
theorem c4_witness :
    (_read_config emptyFs (_resolve_path demoTarget none)
        (decide (demoTarget.format_type = FormatType.yaml)) = .ok [])
  ∧ (lookupKey [] demoTarget.root_key = none)
  ∧ (remove_server_from_target demoTarget "nonexistent" none emptyFs =
      ({ target := "test_target", success := true,
         message := "Server 'nonexistent' not found in Test Target",
         servers_written := [] }, emptyFs)) :=
  ⟨rfl, rfl, c4_remove_absent demoTarget "nonexistent" none emptyFs [] rfl (Or.inl rfl)⟩

/-! ### C3: backup artifact -/

/-- The registry's Cursor global target (also reachable as
`get_target "cursor_global"`). -/
def cursorGlobal : TargetConfig :=
  { name := "cursor_global", display_name := "Cursor",
    config_path := "~/.cursor/mcp.json", root_key := "mcpServers", scope := .global,
    color := "#00D4AA", base_target := "cursor" }

/-- A filesystem holding only the Cursor config file. -/
def c3Fs : Fs :=
  { files := fun p =>
      if p = "/home/user/.cursor/mcp.json" then
        FileState.parsed [("mcpServers", Json.obj [])]
      else FileState.missing,
    now := "20240101_120000", copyFails := fun _ => false, writeFails := fun _ => false }

/-- C3 (counterexample): the claim's backup path pattern
`<original-path>.bak.<YYYYMMDD_HHMMSS>` does not match the code.
`backup_config` uses `Path.with_suffix`, which replaces the `.json`
extension, so after a successful backed-up write of the existing Cursor
config no file exists at `.../mcp.json.bak.20240101_120000`; the copy
sits at `.../mcp.bak.20240101_120000` instead. -/
theorem c3_counterexample :
    (get_target "cursor_global" = some cursorGlobal)
  ∧ (_resolve_path cursorGlobal none = "/home/user/.cursor/mcp.json")
  ∧ (fileExists (c3Fs.files "/home/user/.cursor/mcp.json") = true)
  ∧ ((write_servers_to_target cursorGlobal [] true none c3Fs).1.success = true)
  ∧ ((write_servers_to_target cursorGlobal [] true none c3Fs).2.files
       ("/home/user/.cursor/mcp.json" ++ ".bak." ++ c3Fs.now) = FileState.missing)
  ∧ ((write_servers_to_target cursorGlobal [] true none c3Fs).2.files
       "/home/user/.cursor/mcp.bak.20240101_120000"
      = c3Fs.files "/home/user/.cursor/mcp.json") :=
  ⟨rfl, rfl, rfl, rfl, rfl, rfl⟩

/-- C3 (amended): when the target's file exists and the copy does not
fail, a backed-up write places a byte-identical copy of the pre-write
contents at `Path.with_suffix`'s path — the original path with its final
extension replaced by `.bak.<YYYYMMDD_HHMMSS>` — whatever the outcome of
the subsequent write steps. -/
theorem c3_backup_on_write (target : TargetConfig) (servers : List McpServer)
    (pd : Option String) (fs : Fs)
    (hex : fileExists (fs.files (_resolve_path target pd)) = true)
    (hcopy : fs.copyFails (_resolve_path target pd) = false)
    (hne : pyWithSuffix (_resolve_path target pd) (".bak." ++ fs.now)
        ≠ _resolve_path target pd) :
    fileExists ((write_servers_to_target target servers true pd fs).2.files
        (pyWithSuffix (_resolve_path target pd) (".bak." ++ fs.now))) = true
  ∧ (write_servers_to_target target servers true pd fs).2.files
        (pyWithSuffix (_resolve_path target pd) (".bak." ++ fs.now))
      = fs.files (_resolve_path target pd) := by
  have hback : backup_config target pd fs =
      (.ok (some (pyWithSuffix (_resolve_path target pd) (".bak." ++ fs.now))),
        fs.setFile (pyWithSuffix (_resolve_path target pd) (".bak." ++ fs.now))
          (fs.files (_resolve_path target pd))) := by
    simp only [backup_config]
    rw [hex, hcopy]
    simp
  have hfs1 : (fs.setFile (pyWithSuffix (_resolve_path target pd) (".bak." ++ fs.now))
      (fs.files (_resolve_path target pd))).files
        (pyWithSuffix (_resolve_path target pd) (".bak." ++ fs.now))
      = fs.files (_resolve_path target pd) := by
    simp [Fs.setFile]
  simp only [write_servers_to_target]
  rw [hback]
  simp only [if_true]
  cases hr : _read_config
      (fs.setFile (pyWithSuffix (_resolve_path target pd) (".bak." ++ fs.now))
        (fs.files (_resolve_path target pd)))
      (_resolve_path target pd) (decide (target.format_type = FormatType.yaml)) with
  | error e =>
    dsimp only
    rw [hfs1]
    exact ⟨hex, rfl⟩
  | ok existing =>
    dsimp only
    cases hu : upsertServers existing target servers with
    | error e =>
      dsimp only
      rw [hfs1]
      exact ⟨hex, rfl⟩
    | ok updated =>
      dsimp only
      cases hw : _write_config
          (fs.setFile (pyWithSuffix (_resolve_path target pd) (".bak." ++ fs.now))
            (fs.files (_resolve_path target pd)))
          (_resolve_path target pd) updated (decide (target.format_type = FormatType.yaml)) with
      | error e =>
        dsimp only
        rw [hfs1]
        exact ⟨hex, rfl⟩
      | ok fs2 =>
        dsimp only
        have hfs2 : fs2.files (pyWithSuffix (_resolve_path target pd) (".bak." ++ fs.now))
            = fs.files (_resolve_path target pd) := by
          unfold _write_config _write_yaml _write_json at hw
          rcases hyaml : decide (target.format_type = FormatType.yaml) with _ | _ <;>
            rw [hyaml] at hw <;>
          · by_cases hwf : (fs.setFile (pyWithSuffix (_resolve_path target pd)
                (".bak." ++ fs.now)) (fs.files (_resolve_path target pd))).writeFails
                (_resolve_path target pd)
            · rw [if_pos hwf] at hw; cases hw
            · rw [if_neg hwf] at hw
              cases hw
              simp [Fs.setFile, hne, hfs1]
        rw [hfs2]
        exact ⟨hex, rfl⟩

/-- C3 (witness): the amended backup statement evaluated on the Cursor
target with a concrete file. -/
theorem c3_witness :
    (fileExists (c3Fs.files (_resolve_path cursorGlobal none)) = true)
  ∧ (c3Fs.copyFails (_resolve_path cursorGlobal none) = false)
  ∧ (pyWithSuffix (_resolve_path cursorGlobal none) (".bak." ++ c3Fs.now)
        ≠ _resolve_path cursorGlobal none)
  ∧ (fileExists ((write_servers_to_target cursorGlobal [] true none c3Fs).2.files
        (pyWithSuffix (_resolve_path cursorGlobal none) (".bak." ++ c3Fs.now))) = true
    ∧ (write_servers_to_target cursorGlobal [] true none c3Fs).2.files
          (pyWithSuffix (_resolve_path cursorGlobal none) (".bak." ++ c3Fs.now))
        = c3Fs.files (_resolve_path cursorGlobal none)) :=
  ⟨rfl, rfl, by decide, c3_backup_on_write cursorGlobal [] none c3Fs rfl rfl (by decide)⟩

/-- C7 (witness): the bridge encoding evaluated at the spec's example. -/
theorem c7_witness :
    (demoTarget.format_type = FormatType.standard)
  ∧ (c7Rec.url = some "https://x") ∧ ("https://x" ≠ "")
  ∧ (_from_canonical c7Rec demoTarget =
      [("command", Json.str "npx"),
       ("args", Json.arr ((["mcp-remote", "https://x"] ++
         c7Rec.headers.flatMap (fun kv => ["--header", kv.1 ++ ": " ++ kv.2])).map Json.str))]
  ∧ lookupKey (_from_canonical c7Rec demoTarget) "url" = none
  ∧ lookupKey (_from_canonical c7Rec demoTarget) "headers" = none
  ∧ lookupKey (_from_canonical c7Rec demoTarget) "type" = none
  ∧ ∃ r', _to_canonical "s" (_from_canonical c7Rec demoTarget) demoTarget = .ok r'
      ∧ r'.command = some "npx" ∧ r'.url = none ∧ r'.headers = []) :=
  ⟨rfl, rfl, by simp,
    c7_bridge_encoding demoTarget rfl c7Rec "https://x" rfl (by simp) "s"⟩



theorem lookupKey_setKey (d : List (String × Json)) (k : String) (v : Json) (k2 : String) :
    lookupKey (setKey d k v) k2 = if k = k2 then some v else lookupKey d k2 := by
  induction d with
  | nil => by_cases h : k = k2 <;> simp [setKey, h]
  | cons kv rest ih =>
    rcases kv with ⟨k', v'⟩
    by_cases h : k' = k
    · subst h
      by_cases h2 : k' = k2 <;> simp [setKey, h2]
    · by_cases h2 : k' = k2
      · subst h2
        simp [setKey, h]
        rw [if_neg (fun he => h he.symm)]
      · simp [setKey, h, h2, ih]

theorem upsertLoop_frame (t : TargetConfig) (servers : List McpServer)
    (es : List (String × Json)) (nm : String)
    (h : nm ∉ servers.map (fun s => s.name)) :
    lookupKey (servers.foldl
        (fun es srv => setKey es srv.name (Json.obj (_from_canonical srv t))) es) nm
      = lookupKey es nm := by
  induction servers generalizing es with
  | nil => rfl
  | cons srv rest ih =>
    simp only [List.map, List.mem_cons, not_or] at h
    simp only [List.foldl]
    rw [ih _ h.2, lookupKey_setKey, if_neg (fun he => h.1 he.symm)]




/-- The server mapping a document holds under a root key (empty when the
key is absent or its value is not an object). -/
def docEntries (doc : Doc) (k : String) : List (String × Json) :=
  match lookupKey doc k with
  | some (Json.obj fields) => fields
  | _ => []

/-- `backup_config` never changes the file at the target's own path. -/
theorem backup_preserves_path (target : TargetConfig) (pd : Option String) (fs : Fs) :
    ((backup_config target pd fs).2).files (_resolve_path target pd)
      = fs.files (_resolve_path target pd) := by
  simp only [backup_config]
  by_cases he : fileExists (fs.files (_resolve_path target pd)) = false
  · rw [if_pos he]
  · rw [if_neg he]
    by_cases hc : fs.copyFails (_resolve_path target pd) = true
    · rw [if_pos hc]
    · rw [if_neg hc]
      simp [Fs.setFile]

/-- Reading depends only on the file at the path read. -/
theorem read_config_congr (fs1 fs2 : Fs) (path : String) (b : Bool)
    (h : fs1.files path = fs2.files path) :
    _read_config fs1 path b = _read_config fs2 path b := by
  unfold _read_config _read_yaml _read_json
  rw [h]

/-- C9: a successful write changes only the entries under the target's
root key whose names appear in the written record list; entries with
other names under the root key and all sibling top-level keys keep their
previous bindings in the written file. -/
theorem c9_write_frame (target : TargetConfig) (servers : List McpServer)
    (cb : Bool) (pd : Option String) (fs : Fs) (doc : Doc)
    (hread : _read_config fs (_resolve_path target pd)
        (decide (target.format_type = FormatType.yaml)) = .ok doc)
    (hsucc : (write_servers_to_target target servers cb pd fs).1.success = true) :
    ∃ doc2, (write_servers_to_target target servers cb pd fs).2.files
          (_resolve_path target pd) = .parsed doc2
      ∧ (∀ k, k ≠ target.root_key → lookupKey doc2 k = lookupKey doc k)
      ∧ (∀ nm, nm ∉ servers.map (fun s => s.name) →
          lookupKey (docEntries doc2 target.root_key) nm
            = lookupKey (docEntries doc target.root_key) nm) := by
  have hmain : (write_servers_to_target target servers cb pd fs).1.success = false
      ∨ ∃ updated, upsertServers doc target servers = Except.ok updated
          ∧ (write_servers_to_target target servers cb pd fs).2.files
              (_resolve_path target pd) = FileState.parsed updated := by
    simp only [write_servers_to_target]
    generalize hb : (if cb = true then backup_config target pd fs
        else (Except.ok none, fs)) = pr
    obtain ⟨res, fs1⟩ := pr
    have hfs1 : fs1.files (_resolve_path target pd)
        = fs.files (_resolve_path target pd) := by
      cases cb with
      | false =>
        simp only [Bool.false_eq_true, if_false] at hb
        obtain ⟨h1, h2⟩ := Prod.mk.injEq .. |>.mp hb
        rw [← h2]
      | true =>
        simp only [if_true] at hb
        have hp := backup_preserves_path target pd fs
        rw [hb] at hp
        exact hp
    cases res with
    | error e => left; rfl
    | ok bp =>
      dsimp only
      rw [read_config_congr fs1 fs (_resolve_path target pd) _ hfs1, hread]
      dsimp only
      cases hu : upsertServers doc target servers with
      | error e => left; rfl
      | ok updated =>
        dsimp only
        cases hw : _write_config fs1 (_resolve_path target pd) updated
            (decide (target.format_type = FormatType.yaml)) with
        | error e => left; rfl
        | ok fs2 =>
          dsimp only
          right
          refine ⟨updated, rfl, ?_⟩
          unfold _write_config _write_yaml _write_json at hw
          rcases hyaml : decide (target.format_type = FormatType.yaml) with _ | _ <;>
            rw [hyaml] at hw <;>
          · by_cases hwf : fs1.writeFails (_resolve_path target pd)
            · rw [if_pos hwf] at hw; cases hw
            · rw [if_neg hwf] at hw
              cases hw
              simp [Fs.setFile]
  rcases hmain with hfail | ⟨updated, hu, hfiles⟩
  · rw [hsucc] at hfail; cases hfail
  refine ⟨updated, hfiles, ?_, ?_⟩
  · intro k hk
    unfold upsertServers at hu
    rcases hlu : lookupKey doc target.root_key with _ | v
    all_goals rw [hlu] at hu
    · cases hu
      rw [lookupKey_setKey, if_neg (fun he => hk he.symm)]
    · have hset : ∃ x, updated = setKey doc target.root_key x := by
        cases v with
        | obj fields => cases hu; exact ⟨_, rfl⟩
        | null =>
          rcases hserv : servers.isEmpty with _ | _ <;> rw [hserv] at hu
          · cases hu
          · cases hu; exact ⟨_, rfl⟩
        | bool b =>
          rcases hserv : servers.isEmpty with _ | _ <;> rw [hserv] at hu
          · cases hu
          · cases hu; exact ⟨_, rfl⟩
        | num n =>
          rcases hserv : servers.isEmpty with _ | _ <;> rw [hserv] at hu
          · cases hu
          · cases hu; exact ⟨_, rfl⟩
        | str s2 =>
          rcases hserv : servers.isEmpty with _ | _ <;> rw [hserv] at hu
          · cases hu
          · cases hu; exact ⟨_, rfl⟩
        | arr xs =>
          rcases hserv : servers.isEmpty with _ | _ <;> rw [hserv] at hu
          · cases hu
          · cases hu; exact ⟨_, rfl⟩
      obtain ⟨x, hx⟩ := hset
      rw [hx, lookupKey_setKey, if_neg (fun he => hk he.symm)]
  · intro nm hnm
    unfold upsertServers at hu
    rcases hlu : lookupKey doc target.root_key with _ | v
    all_goals rw [hlu] at hu
    · cases hu
      unfold docEntries
      rw [lookupKey_setKey, if_pos rfl, hlu]
      dsimp only
      rw [upsertLoop_frame target servers [] nm hnm]
    · cases v with
      | obj fields =>
        cases hu
        unfold docEntries
        rw [lookupKey_setKey, if_pos rfl, hlu]
        dsimp only
        rw [upsertLoop_frame target servers fields nm hnm]
      | null =>
        rcases hserv : servers.isEmpty with _ | _ <;> rw [hserv] at hu
        · cases hu
        · cases hu
          unfold docEntries
          rw [lookupKey_setKey, if_pos rfl, hlu]
      | bool b =>
        rcases hserv : servers.isEmpty with _ | _ <;> rw [hserv] at hu
        · cases hu
        · cases hu
          unfold docEntries
          rw [lookupKey_setKey, if_pos rfl, hlu]
      | num n =>
        rcases hserv : servers.isEmpty with _ | _ <;> rw [hserv] at hu
        · cases hu
        · cases hu
          unfold docEntries
          rw [lookupKey_setKey, if_pos rfl, hlu]
      | str s2 =>
        rcases hserv : servers.isEmpty with _ | _ <;> rw [hserv] at hu
        · cases hu
        · cases hu
          unfold docEntries
          rw [lookupKey_setKey, if_pos rfl, hlu]
      | arr xs =>
        rcases hserv : servers.isEmpty with _ | _ <;> rw [hserv] at hu
        · cases hu
        · cases hu
          unfold docEntries
          rw [lookupKey_setKey, if_pos rfl, hlu]


/-- Document used by the C9 witness: a sibling key plus one existing
server entry. -/
def c9Doc : Doc :=
  [("other", Json.str "keep"),
   ("mcpServers", Json.obj [("old", Json.obj [("command", Json.str "z")])])]

/-- Filesystem for the C9 witness. -/
def c9Fs : Fs :=
  { files := fun p =>
      if p = "/tmp/test-target.json" then FileState.parsed c9Doc else FileState.missing,
    now := "20240101_120000", copyFails := fun _ => false, writeFails := fun _ => false }

/-- C9 (witness): the frame property evaluated on a concrete document
with a sibling key and an unrelated entry. -/
theorem c9_witness :
    (_read_config c9Fs (_resolve_path demoTarget none)
        (decide (demoTarget.format_type = FormatType.yaml)) = .ok c9Doc)
  ∧ ((write_servers_to_target demoTarget [c6Rec] false none c9Fs).1.success = true)
  ∧ (∃ doc2, (write_servers_to_target demoTarget [c6Rec] false none c9Fs).2.files
        (_resolve_path demoTarget none) = .parsed doc2
      ∧ (∀ k, k ≠ demoTarget.root_key → lookupKey doc2 k = lookupKey c9Doc k)
      ∧ (∀ nm, nm ∉ [c6Rec].map (fun s => s.name) →
          lookupKey (docEntries doc2 demoTarget.root_key) nm
            = lookupKey (docEntries c9Doc demoTarget.root_key) nm)) :=
  ⟨rfl, rfl, c9_write_frame demoTarget [c6Rec] false none c9Fs c9Doc rfl rfl⟩

/-! ### C8: missing / empty / invalid file tolerance -/

/-- A discovery step over a target that reads `ok []` or raises leaves
the accumulator unchanged. -/
theorem c8_step_skip (fs : Fs) (pd : Option String) (t : TargetConfig)
    (h : read_target_servers fs t pd = .ok [] ∨ ∃ e, read_target_servers fs t pd = .error e)
    (m : List (String × McpServer)) :
    (match read_target_servers fs t pd with
     | .error _ => m
     | .ok servers => mergeInto m servers) = m := by
  rcases h with h | ⟨e, h⟩ <;> rw [h]
  rfl

/-- C8: a target whose file is missing, empty or unparsable yields an
empty server mapping (or a swallowed parse error) instead of raising
past discovery, and the discovery result equals the scan with the
target removed — every other target's contribution is unaffected. -/
theorem c8_bad_file_tolerance (scope : Scope) (pd : Option String) (fs : Fs)
    (pre post : List TargetConfig) (t : TargetConfig)
    (hsplit : get_targets_by_scope scope = pre ++ t :: post)
    (hbad : fs.files (_resolve_path t pd) = .missing
       ∨ fs.files (_resolve_path t pd) = .empty
       ∨ fs.files (_resolve_path t pd) = .invalid) :
    (read_target_servers fs t pd = .ok []
       ∨ ∃ e, read_target_servers fs t pd = .error e)
  ∧ discover_all_servers fs scope pd = discoverTargets fs (pre ++ post) pd := by
  have hread : read_target_servers fs t pd = .ok []
      ∨ ∃ e, read_target_servers fs t pd = .error e := by
    unfold read_target_servers
    rcases hy : decide (t.format_type = FormatType.yaml) with _ | _ <;>
      rcases hbad with h | h | h <;>
        simp [_read_config, _read_yaml, _read_json, h, Bind.bind, Except.bind,
          lookupKey_nil, decodeEntries]
  refine ⟨hread, ?_⟩
  unfold discover_all_servers discoverTargets
  rw [hsplit, List.foldl_append, List.foldl_append, List.foldl_cons]
  rw [c8_step_skip fs pd t hread]

/-- Filesystem for the C8 witness: the Cursor config is unparsable, the
Claude Desktop config holds one server, everything else is missing. -/
def c8Fs : Fs :=
  { files := fun p =>
      if p = "/home/user/.cursor/mcp.json" then FileState.invalid
      else if p = "/home/user/Library/Application Support/Claude/claude_desktop_config.json" then
        FileState.parsed [("mcpServers", Json.obj [("demo", Json.obj [("command", Json.str "a")])])]
      else FileState.missing,
    now := "20240101_120000", copyFails := fun _ => false, writeFails := fun _ => false }

/-- C8 (witness): the tolerance statement evaluated with an unparsable
Cursor config in the global scope. -/
theorem c8_witness :
    (get_targets_by_scope .global
        = GLOBAL_TARGETS.take 4 ++ cursorGlobal :: GLOBAL_TARGETS.drop 5)
  ∧ (c8Fs.files (_resolve_path cursorGlobal none) = FileState.invalid)
  ∧ ((read_target_servers c8Fs cursorGlobal none = .ok []
       ∨ ∃ e, read_target_servers c8Fs cursorGlobal none = .error e)
    ∧ discover_all_servers c8Fs .global none
        = discoverTargets c8Fs (GLOBAL_TARGETS.take 4 ++ GLOBAL_TARGETS.drop 5) none) :=
  ⟨rfl, rfl,
    c8_bad_file_tolerance .global none c8Fs (GLOBAL_TARGETS.take 4) (GLOBAL_TARGETS.drop 5)
      cursorGlobal rfl (Or.inr (Or.inr rfl))⟩

/-! ### C5: unknown target in a batch -/

/-- Inserting an unregistered target id anywhere in a batch adds exactly
one failed result naming it and leaves every other result, the backup
map and the final filesystem unchanged. -/
theorem syncLoop_unknown (sv : List McpServer) (pd : Option String) (bad : String)
    (hbad : get_target bad = none) :
    ∀ (pre post : List String) (fs : Fs) (res : List SyncResult)
      (bk : List (String × String)) (fs2 : Fs),
      syncLoop sv pd (pre ++ post) fs = .ok (res, bk, fs2) →
      syncLoop sv pd (pre ++ bad :: post) fs =
        .ok (res.take pre.length
              ++ ({ target := bad, success := false,
                    message := "Unknown target: " ++ bad,
                    servers_written := [] } : SyncResult) :: res.drop pre.length,
             bk, fs2) := by
  intro pre
  induction pre with
  | nil =>
    intro post fs res bk fs2 h
    simp only [List.nil_append] at h ⊢
    simp only [syncLoop, hbad]
    rw [h]
    simp
  | cons p rest ih =>
    intro post fs res bk fs2 h
    simp only [List.cons_append] at h ⊢
    simp only [syncLoop] at h ⊢
    cases hg : get_target p with
    | none =>
      rw [hg] at h
      dsimp only at h ⊢
      cases hin : syncLoop sv pd (rest ++ post) fs with
      | error e => rw [hin] at h; cases h
      | ok trip =>
        obtain ⟨r, b, f⟩ := trip
        rw [hin] at h
        dsimp only at h
        obtain ⟨h1, h2, h3⟩ := by
          have := Except.ok.inj h
          exact Prod.mk.injEq .. |>.mp this |>.imp_right (Prod.mk.injEq .. |>.mp)
        rw [ih post fs r b f hin]
        dsimp only
        rw [← h1, ← h2, ← h3]
        simp
    | some target =>
      rw [hg] at h
      dsimp only at h ⊢
      cases hbk : backup_config target pd fs with
      | mk resb fs1 =>
        try rw [hbk] at h
        try rw [hbk]
        cases resb with
        | error e => dsimp only at h; cases h
        | ok bp =>
          dsimp only at h ⊢
          cases hin : syncLoop sv pd (rest ++ post)
              (write_servers_to_target target sv false pd fs1).2 with
          | error e => rw [hin] at h; cases h
          | ok trip =>
            obtain ⟨r, b, f⟩ := trip
            rw [hin] at h
            dsimp only at h
            obtain ⟨h1, h2, h3⟩ := by
              have := Except.ok.inj h
              exact Prod.mk.injEq .. |>.mp this |>.imp_right (Prod.mk.injEq .. |>.mp)
            rw [ih post _ r b f hin]
            dsimp only
            rw [← h1, ← h2, ← h3]
            simp


/-- C5: a sync batch containing an id not in the registry returns
(rather than raising) with a `success = false` result naming the
unknown target at its position, while the remaining targets are still
processed and yield exactly the results they yield without it. -/
theorem c5_unknown_target (sns : List String) (pre post : List String) (bad : String)
    (scope : Scope) (pd : Option String) (fs : Fs)
    (hbad : get_target bad = none)
    (res : List SyncResult) (bk : List (String × String)) (fs2 : Fs)
    (hok : sync_servers sns (pre ++ post) scope pd fs = .ok (res, bk, fs2)) :
    sync_servers sns (pre ++ bad :: post) scope pd fs =
      .ok (res.take pre.length
            ++ ({ target := bad, success := false,
                  message := "Unknown target: " ++ bad,
                  servers_written := [] } : SyncResult) :: res.drop pre.length,
           bk, fs2) := by
  unfold sync_servers at hok ⊢
  exact syncLoop_unknown _ pd bad hbad pre post fs res bk fs2 hok


/-- C5 (witness): a concrete batch with one known and one unknown
target id. -/
theorem c5_witness :
    (get_target "not-a-real-target" = none)
  ∧ ∃ res bk fs2,
      sync_servers ["demo"] ["cursor_global"] .global none emptyFs = .ok (res, bk, fs2)
    ∧ sync_servers ["demo"] ["cursor_global", "not-a-real-target"] .global none emptyFs =
        .ok (res.take 1
              ++ ({ target := "not-a-real-target", success := false,
                    message := "Unknown target: not-a-real-target",
                    servers_written := [] } : SyncResult) :: res.drop 1,
             bk, fs2) :=
  ⟨rfl, _, _, _, rfl,
    c5_unknown_target ["demo"] ["cursor_global"] [] "not-a-real-target" .global none emptyFs
      rfl _ _ _ rfl⟩


/-! ### C2: per-target exception safety of writes -/

/-- Every write result is attributed to the requested target. -/
theorem write_target_name (target : TargetConfig) (servers : List McpServer)
    (cb : Bool) (pd : Option String) (fs : Fs) :
    (write_servers_to_target target servers cb pd fs).1.target = target.name := by
  simp only [write_servers_to_target]
  split
  · rfl
  · split
    · rfl
    · split
      · rfl
      · split <;> rfl

/-- A write produces either the success record or a failure record with
the diagnostic message; nothing else. -/
theorem write_shape (target : TargetConfig) (servers : List McpServer)
    (cb : Bool) (pd : Option String) (fs : Fs) :
    ((write_servers_to_target target servers cb pd fs).1.success = true
      ∧ (write_servers_to_target target servers cb pd fs).1.message
          = "Wrote " ++ toString servers.length ++ " server(s) to " ++ target.display_name
      ∧ (write_servers_to_target target servers cb pd fs).1.servers_written
          = servers.map (fun s => s.name))
  ∨ ((write_servers_to_target target servers cb pd fs).1.success = false
      ∧ ∃ e, (write_servers_to_target target servers cb pd fs).1.message
          = "Error writing to " ++ target.display_name ++ ": " ++ e
        ∧ (write_servers_to_target target servers cb pd fs).1.servers_written = []) := by
  simp only [write_servers_to_target]
  split
  · right; exact ⟨rfl, _, rfl, rfl⟩
  · split
    · right; exact ⟨rfl, _, rfl, rfl⟩
    · split
      · right; exact ⟨rfl, _, rfl, rfl⟩
      · split
        · right; exact ⟨rfl, _, rfl, rfl⟩
        · left; exact ⟨rfl, rfl, rfl⟩

/-- `backup_config` only touches files, never the oracles or clock. -/
theorem backup_oracles (target : TargetConfig) (pd : Option String) (fs : Fs) :
    ((backup_config target pd fs).2).copyFails = fs.copyFails
  ∧ ((backup_config target pd fs).2).writeFails = fs.writeFails
  ∧ ((backup_config target pd fs).2).now = fs.now := by
  simp only [backup_config]
  by_cases he : fileExists (fs.files (_resolve_path target pd)) = false
  · rw [if_pos he]; exact ⟨rfl, rfl, rfl⟩
  · rw [if_neg he]
    by_cases hc : fs.copyFails (_resolve_path target pd) = true
    · rw [if_pos hc]; exact ⟨rfl, rfl, rfl⟩
    · rw [if_neg hc]; exact ⟨rfl, rfl, rfl⟩

/-- `backup_config` writes only at the backup path. -/
theorem backup_frame (target : TargetConfig) (pd : Option String) (fs : Fs) (p : String)
    (hp : p ≠ pyWithSuffix (_resolve_path target pd) (".bak." ++ fs.now)) :
    ((backup_config target pd fs).2).files p = fs.files p := by
  simp only [backup_config]
  by_cases he : fileExists (fs.files (_resolve_path target pd)) = false
  · rw [if_pos he]
  · rw [if_neg he]
    by_cases hc : fs.copyFails (_resolve_path target pd) = true
    · rw [if_pos hc]
    · rw [if_neg hc]
      simp [Fs.setFile, hp]

/-- A `shutil.copy2` failure during the in-write backup yields a failed
result instead of an exception. -/
theorem write_copy_fail (target : TargetConfig) (servers : List McpServer)
    (pd : Option String) (fs : Fs)
    (hex : fileExists (fs.files (_resolve_path target pd)) = true)
    (hcopy : fs.copyFails (_resolve_path target pd) = true) :
    (write_servers_to_target target servers true pd fs).1.success = false := by
  have hb : backup_config target pd fs = (.error "copy failed", fs) := by
    simp only [backup_config]
    rw [hex]
    simp [hcopy]
  simp only [write_servers_to_target]
  rw [hb]
  simp only [if_true]

/-- An unparsable config file yields a failed result instead of an
exception. -/
theorem write_parse_fail (target : TargetConfig) (servers : List McpServer)
    (cb : Bool) (pd : Option String) (fs : Fs)
    (hinv : fs.files (_resolve_path target pd) = .invalid) :
    (write_servers_to_target target servers cb pd fs).1.success = false := by
  simp only [write_servers_to_target]
  generalize hb : (if cb = true then backup_config target pd fs
      else (Except.ok none, fs)) = pr
  obtain ⟨res, fs1⟩ := pr
  have hfs1 : fs1.files (_resolve_path target pd) = FileState.invalid := by
    cases cb with
    | false =>
      simp only [Bool.false_eq_true, if_false] at hb
      obtain ⟨h1, h2⟩ := Prod.mk.injEq .. |>.mp hb
      rw [← h2, hinv]
    | true =>
      simp only [if_true] at hb
      have hp := backup_preserves_path target pd fs
      rw [hb] at hp
      dsimp only at hp
      rw [hp, hinv]
  cases res with
  | error e => rfl
  | ok bp =>
    dsimp only
    have hread : _read_config fs1 (_resolve_path target pd)
        (decide (target.format_type = FormatType.yaml)) = .error
          (if decide (target.format_type = FormatType.yaml) = true
           then "could not determine a constructor" else "Expecting value") := by
      rcases hy : decide (target.format_type = FormatType.yaml) with _ | _ <;>
        simp [_read_config, _read_yaml, _read_json, hfs1, hy]
    rw [hread]

/-- A filesystem failure when writing the file back yields a failed
result instead of an exception. -/
theorem write_io_fail (target : TargetConfig) (servers : List McpServer)
    (cb : Bool) (pd : Option String) (fs : Fs)
    (hw : fs.writeFails (_resolve_path target pd) = true) :
    (write_servers_to_target target servers cb pd fs).1.success = false := by
  simp only [write_servers_to_target]
  generalize hb : (if cb = true then backup_config target pd fs
      else (Except.ok none, fs)) = pr
  obtain ⟨res, fs1⟩ := pr
  have hfs1 : fs1.writeFails (_resolve_path target pd) = true := by
    cases cb with
    | false =>
      simp only [Bool.false_eq_true, if_false] at hb
      obtain ⟨h1, h2⟩ := Prod.mk.injEq .. |>.mp hb
      rw [← h2]; exact hw
    | true =>
      simp only [if_true] at hb
      have hp := (backup_oracles target pd fs).2.1
      rw [hb] at hp
      dsimp only at hp
      rw [hp]; exact hw
  cases res with
  | error e => rfl
  | ok bp =>
    dsimp only
    cases hr : _read_config fs1 (_resolve_path target pd)
        (decide (target.format_type = FormatType.yaml)) with
    | error e => rfl
    | ok existing =>
      dsimp only
      cases hu : upsertServers existing target servers with
      | error e => rfl
      | ok updated =>
        dsimp only
        have hwrite : _write_config fs1 (_resolve_path target pd) updated
            (decide (target.format_type = FormatType.yaml)) = .error "write failed" := by
          rcases hy : decide (target.format_type = FormatType.yaml) with _ | _ <;>
            simp [_write_config, _write_yaml, _write_json, hfs1, hy]
        rw [hwrite]

/-- A write touches nothing besides the target path and its backup
path, whatever the outcome. -/
theorem write_frame_other_paths (target : TargetConfig) (servers : List McpServer)
    (cb : Bool) (pd : Option String) (fs : Fs) (p : String)
    (hp1 : p ≠ _resolve_path target pd)
    (hp2 : p ≠ pyWithSuffix (_resolve_path target pd) (".bak." ++ fs.now)) :
    (write_servers_to_target target servers cb pd fs).2.files p = fs.files p := by
  simp only [write_servers_to_target]
  generalize hb : (if cb = true then backup_config target pd fs
      else (Except.ok none, fs)) = pr
  obtain ⟨res, fs1⟩ := pr
  have hfs1 : fs1.files p = fs.files p := by
    cases cb with
    | false =>
      simp only [Bool.false_eq_true, if_false] at hb
      obtain ⟨h1, h2⟩ := Prod.mk.injEq .. |>.mp hb
      rw [← h2]
    | true =>
      simp only [if_true] at hb
      have hf := backup_frame target pd fs p hp2
      rw [hb] at hf
      exact hf
  cases res with
  | error e => exact hfs1
  | ok bp =>
    dsimp only
    cases hr : _read_config fs1 (_resolve_path target pd)
        (decide (target.format_type = FormatType.yaml)) with
    | error e => exact hfs1
    | ok existing =>
      dsimp only
      cases hu : upsertServers existing target servers with
      | error e => exact hfs1
      | ok updated =>
        dsimp only
        cases hwc : _write_config fs1 (_resolve_path target pd) updated
            (decide (target.format_type = FormatType.yaml)) with
        | error e => exact hfs1
        | ok fs2 =>
          dsimp only
          have : fs2.files p = fs1.files p := by
            unfold _write_config _write_yaml _write_json at hwc
            rcases hy : decide (target.format_type = FormatType.yaml) with _ | _ <;>
              rw [hy] at hwc <;>
            · by_cases hwf : fs1.writeFails (_resolve_path target pd)
              · rw [if_pos hwf] at hwc; cases hwc
              · rw [if_neg hwf] at hwc
                cases hwc
                simp [Fs.setFile, hp1]
          rw [this, hfs1]

/-- Two filesystems agreeing at the target path make `backup_config`
succeed or fail together, with the same error. -/
theorem backup_res_cases (target : TargetConfig) (pd : Option String) (fsa fsb : Fs)
    (h1 : fsa.files (_resolve_path target pd) = fsb.files (_resolve_path target pd))
    (h2 : fsa.copyFails (_resolve_path target pd) = fsb.copyFails (_resolve_path target pd)) :
    ((backup_config target pd fsa).1 = .error "copy failed"
       ∧ (backup_config target pd fsb).1 = .error "copy failed")
  ∨ (∃ bpa bpb, (backup_config target pd fsa).1 = .ok bpa
       ∧ (backup_config target pd fsb).1 = .ok bpb) := by
  rcases hea : fileExists (fsa.files (_resolve_path target pd)) with _ | _
  · have heb : fileExists (fsb.files (_resolve_path target pd)) = false := by
      rw [← h1]; exact hea
    right
    exact ⟨none, none, by simp [backup_config, hea], by simp [backup_config, heb]⟩
  · have heb : fileExists (fsb.files (_resolve_path target pd)) = true := by
      rw [← h1]; exact hea
    rcases hca : fsa.copyFails (_resolve_path target pd) with _ | _
    · have hcb : fsb.copyFails (_resolve_path target pd) = false := by
        rw [← h2]; exact hca
      right
      exact ⟨some (pyWithSuffix (_resolve_path target pd) (".bak." ++ fsa.now)),
             some (pyWithSuffix (_resolve_path target pd) (".bak." ++ fsb.now)),
             by simp [backup_config, hea, hca], by simp [backup_config, heb, hcb]⟩
    · have hcb : fsb.copyFails (_resolve_path target pd) = true := by
        rw [← h2]; exact hca
      left
      exact ⟨by simp [backup_config, hea, hca], by simp [backup_config, heb, hcb]⟩

/-- Two filesystems agreeing on `writeFails` at a path make
`_write_config` succeed or fail together, with the same error. -/
theorem write_config_res_cases (fsa fsb : Fs) (path : String) (da db : Doc) (b : Bool)
    (hw : fsa.writeFails path = fsb.writeFails path) :
    (_write_config fsa path da b = .error "write failed"
       ∧ _write_config fsb path db b = .error "write failed")
  ∨ (∃ fa fb, _write_config fsa path da b = .ok fa ∧ _write_config fsb path db b = .ok fb) := by
  rcases hwa : fsa.writeFails path with _ | _
  · have hwb : fsb.writeFails path = false := by rw [← hw]; exact hwa
    right
    rcases b with _ | _ <;>
      exact ⟨fsa.setFile path (FileState.parsed da), fsb.setFile path (FileState.parsed db),
        by simp [_write_config, _write_yaml, _write_json, hwa],
        by simp [_write_config, _write_yaml, _write_json, hwb]⟩
  · have hwb : fsb.writeFails path = true := by rw [← hw]; exact hwa
    left
    rcases b with _ | _ <;>
      exact ⟨by simp [_write_config, _write_yaml, _write_json, hwa],
        by simp [_write_config, _write_yaml, _write_json, hwb]⟩

/-- The read/upsert/write tail of `write_servers_to_target` returns the
same result on two filesystems agreeing at the target path. -/
theorem write_tail_congr (target : TargetConfig) (servers : List McpServer)
    (pd : Option String) (ga gb : Fs)
    (hg1 : ga.files (_resolve_path target pd) = gb.files (_resolve_path target pd))
    (hg3 : ga.writeFails (_resolve_path target pd) = gb.writeFails (_resolve_path target pd)) :
    (match _read_config ga (_resolve_path target pd)
        (decide (target.format_type = FormatType.yaml)) with
     | Except.error e =>
       (({ target := target.name, success := false,
           message := "Error writing to " ++ target.display_name ++ ": " ++ e,
           servers_written := [] } : SyncResult), ga)
     | Except.ok existing =>
       match upsertServers existing target servers with
       | Except.error e =>
         (({ target := target.name, success := false,
             message := "Error writing to " ++ target.display_name ++ ": " ++ e,
             servers_written := [] } : SyncResult), ga)
       | Except.ok updated =>
         match _write_config ga (_resolve_path target pd) updated
             (decide (target.format_type = FormatType.yaml)) with
         | Except.error e =>
           (({ target := target.name, success := false,
               message := "Error writing to " ++ target.display_name ++ ": " ++ e,
               servers_written := [] } : SyncResult), ga)
         | Except.ok fs2 =>
           (({ target := target.name, success := true,
               message := "Wrote " ++ toString servers.length ++ " server(s) to "
                 ++ target.display_name,
               servers_written := servers.map (fun s : McpServer => s.name) } : SyncResult),
            fs2)).1
    = (match _read_config gb (_resolve_path target pd)
        (decide (target.format_type = FormatType.yaml)) with
     | Except.error e =>
       (({ target := target.name, success := false,
           message := "Error writing to " ++ target.display_name ++ ": " ++ e,
           servers_written := [] } : SyncResult), gb)
     | Except.ok existing =>
       match upsertServers existing target servers with
       | Except.error e =>
         (({ target := target.name, success := false,
             message := "Error writing to " ++ target.display_name ++ ": " ++ e,
             servers_written := [] } : SyncResult), gb)
       | Except.ok updated =>
         match _write_config gb (_resolve_path target pd) updated
             (decide (target.format_type = FormatType.yaml)) with
         | Except.error e =>
           (({ target := target.name, success := false,
               message := "Error writing to " ++ target.display_name ++ ": " ++ e,
               servers_written := [] } : SyncResult), gb)
         | Except.ok fs2 =>
           (({ target := target.name, success := true,
               message := "Wrote " ++ toString servers.length ++ " server(s) to "
                 ++ target.display_name,
               servers_written := servers.map (fun s : McpServer => s.name) } : SyncResult),
            fs2)).1 := by
  rw [read_config_congr ga gb (_resolve_path target pd) _ hg1]
  cases hr : _read_config gb (_resolve_path target pd)
      (decide (target.format_type = FormatType.yaml)) with
  | error e => rfl
  | ok existing =>
    dsimp only
    cases hu : upsertServers existing target servers with
    | error e => rfl
    | ok updated =>
      dsimp only
      rcases write_config_res_cases ga gb (_resolve_path target pd) updated updated
          (decide (target.format_type = FormatType.yaml)) hg3 with ⟨ha, hb⟩ | ⟨fa, fb, ha, hb⟩ <;>
        rw [ha, hb]

/-- The write result depends only on the target path: its file contents
and the failure oracles there. -/
theorem write_result_congr (target : TargetConfig) (servers : List McpServer)
    (cb : Bool) (pd : Option String) (fsa fsb : Fs)
    (h1 : fsa.files (_resolve_path target pd) = fsb.files (_resolve_path target pd))
    (h2 : fsa.copyFails (_resolve_path target pd) = fsb.copyFails (_resolve_path target pd))
    (h3 : fsa.writeFails (_resolve_path target pd) = fsb.writeFails (_resolve_path target pd)) :
    (write_servers_to_target target servers cb pd fsa).1
      = (write_servers_to_target target servers cb pd fsb).1 := by
  simp only [write_servers_to_target]
  cases cb with
  | false =>
    simp only [Bool.false_eq_true, if_false]
    exact write_tail_congr target servers pd fsa fsb h1 h3
  | true =>
    simp only [if_true]
    cases hba : backup_config target pd fsa with
    | mk resa fs1a =>
      cases hbb : backup_config target pd fsb with
      | mk resb fs1b =>
        rcases backup_res_cases target pd fsa fsb h1 h2 with ⟨ha, hb⟩ | ⟨bpa, bpb, ha, hb⟩
        · rw [hba] at ha
          rw [hbb] at hb
          dsimp only at ha hb
          subst ha
          subst hb
          rfl
        · rw [hba] at ha
          rw [hbb] at hb
          dsimp only at ha hb
          subst ha
          subst hb
          dsimp only
          have hp1 : fs1a.files (_resolve_path target pd)
              = fs1b.files (_resolve_path target pd) := by
            have pa := backup_preserves_path target pd fsa
            have pb := backup_preserves_path target pd fsb
            rw [hba] at pa
            rw [hbb] at pb
            dsimp only at pa pb
            rw [pa, pb, h1]
          have hp3 : fs1a.writeFails (_resolve_path target pd)
              = fs1b.writeFails (_resolve_path target pd) := by
            have pa := (backup_oracles target pd fsa).2.1
            have pb := (backup_oracles target pd fsb).2.1
            rw [hba] at pa
            rw [hbb] at pb
            dsimp only at pa pb
            rw [pa, pb, h3]
          exact write_tail_congr target servers pd fs1a fs1b hp1 hp3

/-- C2: `write_servers_to_target` always returns a `SyncResult` for the
requested target; every failure (backup copy, parse, upsert, file write)
becomes `success = false` with the descriptive message and no exception;
a target touches no path other than its own file and backup, and its
result depends only on its own path, so one target failing cannot
affect other targets in a batch. -/
theorem c2_write_exception_safety (target : TargetConfig) (servers : List McpServer)
    (cb : Bool) (pd : Option String) (fs : Fs) :
    (write_servers_to_target target servers cb pd fs).1.target = target.name
  ∧ ((write_servers_to_target target servers cb pd fs).1.success = false →
       ∃ e, (write_servers_to_target target servers cb pd fs).1.message
           = "Error writing to " ++ target.display_name ++ ": " ++ e
         ∧ (write_servers_to_target target servers cb pd fs).1.servers_written = [])
  ∧ (cb = true → fileExists (fs.files (_resolve_path target pd)) = true →
       fs.copyFails (_resolve_path target pd) = true →
       (write_servers_to_target target servers cb pd fs).1.success = false)
  ∧ (fs.files (_resolve_path target pd) = .invalid →
       (write_servers_to_target target servers cb pd fs).1.success = false)
  ∧ (fs.writeFails (_resolve_path target pd) = true →
       (write_servers_to_target target servers cb pd fs).1.success = false)
  ∧ (∀ p, p ≠ _resolve_path target pd →
        p ≠ pyWithSuffix (_resolve_path target pd) (".bak." ++ fs.now) →
        (write_servers_to_target target servers cb pd fs).2.files p = fs.files p)
  ∧ (∀ fsb : Fs,
        fs.files (_resolve_path target pd) = fsb.files (_resolve_path target pd) →
        fs.copyFails (_resolve_path target pd) = fsb.copyFails (_resolve_path target pd) →
        fs.writeFails (_resolve_path target pd) = fsb.writeFails (_resolve_path target pd) →
        (write_servers_to_target target servers cb pd fs).1
          = (write_servers_to_target target servers cb pd fsb).1) := by
  refine ⟨write_target_name target servers cb pd fs, ?_, ?_, ?_, ?_, ?_, ?_⟩
  · intro h
    rcases write_shape target servers cb pd fs with ⟨hs, _, _⟩ | ⟨_, e, hm, hw⟩
    · rw [hs] at h; cases h
    · exact ⟨e, hm, hw⟩
  · intro hcb hex hc
    subst hcb
    exact write_copy_fail target servers pd fs hex hc
  · intro hinv
    exact write_parse_fail target servers cb pd fs hinv
  · intro hw
    exact write_io_fail target servers cb pd fs hw
  · intro p hp1 hp2
    exact write_frame_other_paths target servers cb pd fs p hp1 hp2
  · intro fsb ha hb hc
    exact write_result_congr target servers cb pd fs fsb ha hb hc

/-- C2 (witness): a concrete failing write (unparsable Cursor config)
returns the failed result and leaves another target untouched. -/
theorem c2_witness :
    (c8Fs.files (_resolve_path cursorGlobal none) = FileState.invalid)
  ∧ ((write_servers_to_target cursorGlobal [c6Rec] true none c8Fs).1.target
      = cursorGlobal.name)
  ∧ ((write_servers_to_target cursorGlobal [c6Rec] true none c8Fs).1.success = false)
  ∧ (∃ e, (write_servers_to_target cursorGlobal [c6Rec] true none c8Fs).1.message
        = "Error writing to " ++ cursorGlobal.display_name ++ ": " ++ e
      ∧ (write_servers_to_target cursorGlobal [c6Rec] true none c8Fs).1.servers_written = [])
  ∧ ((write_servers_to_target cursorGlobal [c6Rec] true none c8Fs).2.files
       "/home/user/.claude.json" = c8Fs.files "/home/user/.claude.json") := by
  have h := c2_write_exception_safety cursorGlobal [c6Rec] true none c8Fs
  have hfail := h.2.2.2.1 rfl
  exact ⟨rfl, h.1, hfail, h.2.1 hfail,
    h.2.2.2.2.2.1 "/home/user/.claude.json" (by decide) (by decide)⟩


/-! ### C10: nonexistent server names are dropped -/

/-- No injected I/O failures and no unparsable files anywhere. -/
def NoFail (fs : Fs) : Prop :=
  (∀ p, fs.copyFails p = false) ∧ (∀ p, fs.writeFails p = false)
    ∧ (∀ p, fs.files p ≠ .invalid)

/-- Under `NoFail`, a backup never raises and preserves `NoFail`. -/
theorem backup_nofail (t : TargetConfig) (pd : Option String) (fs : Fs)
    (h : NoFail fs) :
    ∃ bp fs1, backup_config t pd fs = (.ok bp, fs1) ∧ NoFail fs1 := by
  simp only [backup_config]
  by_cases he : fileExists (fs.files (_resolve_path t pd)) = false
  · exact ⟨none, fs, by rw [if_pos he], h⟩
  · rw [if_neg he, if_neg (by rw [h.1 (_resolve_path t pd)]; exact Bool.false_ne_true)]
    refine ⟨_, _, rfl, h.1, h.2.1, ?_⟩
    intro p
    simp only [Fs.setFile]
    by_cases hp : p = pyWithSuffix (_resolve_path t pd) (".bak." ++ fs.now)
    · rw [if_pos hp]; exact h.2.2 _
    · rw [if_neg hp]; exact h.2.2 p

/-- A file that is not unparsable always reads successfully. -/
theorem read_ok_of_not_invalid (fs : Fs) (path : String) (b : Bool)
    (h : fs.files path ≠ .invalid) :
    ∃ doc, _read_config fs path b = .ok doc := by
  rcases b with _ | _ <;>
    rcases hf : fs.files path with _ | _ | _ | d <;>
      simp_all [_read_config, _read_yaml, _read_json]

/-- Upserting an empty record list never raises. -/
theorem upsert_nil_ok (doc : Doc) (t : TargetConfig) :
    ∃ updated, upsertServers doc t [] = .ok updated := by
  simp only [upsertServers]
  rcases hk : lookupKey doc t.root_key with _ | v
  · exact ⟨_, rfl⟩
  · cases v <;> simp

/-- Under `NoFail`, writing an empty record list succeeds with
"Wrote 0 server(s)" and nothing written, preserving `NoFail`. -/
theorem write_nil_result (t : TargetConfig) (pd : Option String) (fs : Fs)
    (h : NoFail fs) :
    ∃ fs2, write_servers_to_target t [] false pd fs =
      ({ target := t.name, success := true,
         message := "Wrote 0 server(s) to " ++ t.display_name,
         servers_written := [] }, fs2) ∧ NoFail fs2 := by
  obtain ⟨doc, hr⟩ := read_ok_of_not_invalid fs (_resolve_path t pd)
    (decide (t.format_type = FormatType.yaml)) (h.2.2 _)
  obtain ⟨updated, hu⟩ := upsert_nil_ok doc t
  have hw : _write_config fs (_resolve_path t pd) updated
      (decide (t.format_type = FormatType.yaml))
      = .ok (fs.setFile (_resolve_path t pd) (.parsed updated)) := by
    rcases hy : decide (t.format_type = FormatType.yaml) with _ | _ <;>
      simp [_write_config, _write_yaml, _write_json, h.2.1 (_resolve_path t pd)]
  refine ⟨fs.setFile (_resolve_path t pd) (.parsed updated), ?_, h.1, h.2.1, ?_⟩
  · simp only [write_servers_to_target, Bool.false_eq_true, if_false]
    rw [hr]
    dsimp only
    rw [hu]
    dsimp only
    rw [hw]
    rfl
  · intro p
    simp only [Fs.setFile]
    by_cases hp : p = _resolve_path t pd
    · rw [if_pos hp]
      intro hcon
      cases hcon
    · rw [if_neg hp]; exact h.2.2 p

/-- The sync loop over an empty server list: per-target zero-server
successes and unknown-target failures, in order. -/
theorem syncLoop_nil (pd : Option String) :
    ∀ (tnames : List String) (fs : Fs), NoFail fs →
    ∃ bk fs2, syncLoop [] pd tnames fs =
      .ok (tnames.map (fun tn =>
        match get_target tn with
        | none => ({ target := tn, success := false,
                     message := "Unknown target: " ++ tn,
                     servers_written := [] } : SyncResult)
        | some t => ({ target := t.name, success := true,
                       message := "Wrote 0 server(s) to " ++ t.display_name,
                       servers_written := [] } : SyncResult)), bk, fs2) := by
  intro tnames
  induction tnames with
  | nil => exact fun fs _ => ⟨[], fs, rfl⟩
  | cons tn rest ih =>
    intro fs h
    cases hg : get_target tn with
    | none =>
      obtain ⟨bk, fs2, hrec⟩ := ih fs h
      refine ⟨bk, fs2, ?_⟩
      simp only [syncLoop, hg, hrec, List.map_cons]
    | some t =>
      obtain ⟨bp, fs1, hbk, h1⟩ := backup_nofail t pd fs h
      obtain ⟨fs2, hwr, h2⟩ := write_nil_result t pd fs1 h1
      obtain ⟨bk, fs3, hrec⟩ := ih fs2 h2
      refine ⟨(match bp with | some p => (tn, p) :: bk | none => bk), fs3, ?_⟩
      simp only [syncLoop, hg, hbk, hwr, hrec, List.map_cons]
      cases bp <;> rfl

/-- C10: requested names absent from discovery are silently dropped:
the synced list is empty, no result mentions them, no failed result is
produced for them, and (absent I/O failures) every known target reports
success with zero servers written while unknown targets fail as usual. -/
theorem c10_nonexistent_names_dropped (sns tnames : List String) (scope : Scope) (pd : Option String)
    (fs : Fs)
    (habsent : ∀ n ∈ sns, lookupServer (discover_all_servers fs scope pd) n = none)
    (hnf : NoFail fs) :
    sns.filterMap (fun n => lookupServer (discover_all_servers fs scope pd) n) = []
  ∧ ∃ bk fs2, sync_servers sns tnames scope pd fs =
      .ok (tnames.map (fun tn =>
        match get_target tn with
        | none => ({ target := tn, success := false,
                     message := "Unknown target: " ++ tn,
                     servers_written := [] } : SyncResult)
        | some t => ({ target := t.name, success := true,
                       message := "Wrote 0 server(s) to " ++ t.display_name,
                       servers_written := [] } : SyncResult)), bk, fs2) := by
  have hfm : sns.filterMap (fun n => lookupServer (discover_all_servers fs scope pd) n)
      = [] := by
    rw [List.filterMap_eq_nil]
    exact habsent
  refine ⟨hfm, ?_⟩
  simp only [sync_servers]
  rw [hfm]
  exact syncLoop_nil pd tnames fs hnf

/-- C10 (witness): a batch naming only a nonexistent server against one
known and one unknown target. -/
theorem c10_witness :
    (∀ n ∈ ["ghost"], lookupServer (discover_all_servers emptyFs .global none) n = none)
  ∧ NoFail emptyFs
  ∧ ((["ghost"].filterMap
        (fun n => lookupServer (discover_all_servers emptyFs .global none) n) = [])
    ∧ ∃ bk fs2, sync_servers ["ghost"] ["cursor_global", "bogus"] .global none emptyFs =
        .ok ((["cursor_global", "bogus"]).map (fun tn =>
          match get_target tn with
          | none => ({ target := tn, success := false,
                       message := "Unknown target: " ++ tn,
                       servers_written := [] } : SyncResult)
          | some t => ({ target := t.name, success := true,
                         message := "Wrote 0 server(s) to " ++ t.display_name,
                         servers_written := [] } : SyncResult)), bk, fs2)) :=
  ⟨by intro n _; rfl,
   ⟨fun p => rfl, fun p => rfl, fun p h => FileState.noConfusion h⟩,
   c10_nonexistent_names_dropped ["ghost"] ["cursor_global", "bogus"] .global none emptyFs (by intro n _; rfl)
     ⟨fun p => rfl, fun p => rfl, fun p h => FileState.noConfusion h⟩⟩


/-! ### C1: first-writer-wins merge -/

/-- Lookup in the empty accumulator. -/
theorem lookupServer_nil (n : String) : lookupServer [] n = none := rfl

/-- Lookup steps through one binding. -/
theorem lookupServer_cons (k : String) (v : McpServer) (rest : List (String × McpServer))
    (n : String) :
    lookupServer ((k, v) :: rest) n = if k = n then some v else lookupServer rest n := by
  by_cases h : k = n <;> simp [lookupServer, List.find?, h]

/-- Lookup over concatenation prefers the left part. -/
theorem lookupServer_append (a b : List (String × McpServer)) (n : String) :
    lookupServer (a ++ b) n =
      (match lookupServer a n with
       | some r => some r
       | none => lookupServer b n) := by
  induction a with
  | nil => simp [lookupServer_nil]
  | cons kv rest ih =>
    rcases kv with ⟨k, v⟩
    by_cases h : k = n <;> simp [lookupServer_cons, h, ih]

/-- In-place update only affects the updated name. -/
theorem lookupServer_updateServer (m : List (String × McpServer)) (nm : String)
    (f : McpServer → McpServer) (n : String) :
    lookupServer (updateServer m nm f) n =
      if nm = n then (lookupServer m n).map f else lookupServer m n := by
  induction m with
  | nil => by_cases h : nm = n <;> simp [updateServer, lookupServer_nil, h]
  | cons kv rest ih =>
    rcases kv with ⟨k, v⟩
    by_cases hk : k = nm
    · subst hk
      by_cases h : k = n <;> simp [updateServer, lookupServer_cons, h, ih]
    · by_cases h : k = n
      · subst h
        have : ¬nm = k := fun he => hk he.symm
        simp [updateServer, hk, lookupServer_cons, this]
      · simp [updateServer, hk, lookupServer_cons, h, ih]

/-- One merge step: a duplicate only accumulates sources, a new name is
appended, other names are untouched. -/
theorem lookupServer_mergeOne (m : List (String × McpServer)) (nm : String)
    (srv : McpServer) (n : String) :
    lookupServer (mergeOne m nm srv) n =
      if nm = n then
        (match lookupServer m n with
         | some ex => some { ex with sources := mergeSources ex.sources srv.sources }
         | none => some srv)
      else lookupServer m n := by
  simp only [mergeOne]
  by_cases h : nm = n
  · subst h
    cases hl : lookupServer m nm with
    | none => simp [lookupServer_append, hl, lookupServer_cons]
    | some ex => simp [lookupServer_updateServer, hl]
  · cases hl : lookupServer m nm with
    | none =>
      rw [lookupServer_append]
      have : ¬nm = n := h
      simp [lookupServer_cons, this, h]
      cases lookupServer m n <;> simp [lookupServer_nil]
    | some ex => simp [lookupServer_updateServer, h]

/-- Source accumulation is exactly union of memberships. -/
theorem mem_mergeSources (src new : List String) (x : String) :
    x ∈ mergeSources src new ↔ x ∈ src ∨ x ∈ new := by
  induction new generalizing src with
  | nil => simp [mergeSources]
  | cons y ys ih =>
    simp only [mergeSources, List.foldl_cons] at ih ⊢
    by_cases hy : y ∈ src
    · rw [if_pos hy, ih]
      constructor
      · rintro (h | h)
        · exact Or.inl h
        · exact Or.inr (List.mem_cons_of_mem y h)
      · rintro (h | h)
        · exact Or.inl h
        · rcases List.mem_cons.mp h with h | h
          · exact Or.inl (h ▸ hy)
          · exact Or.inr h
    · rw [if_neg hy, ih]
      simp [List.mem_append, List.mem_cons, or_assoc]

/-- Source accumulation never introduces duplicates. -/
theorem nodup_mergeSources (src new : List String) (h : src.Nodup) :
    (mergeSources src new).Nodup := by
  induction new generalizing src with
  | nil => exact h
  | cons y ys ih =>
    simp only [mergeSources, List.foldl_cons] at ih ⊢
    by_cases hy : y ∈ src
    · rw [if_pos hy]
      exact ih src h
    · rw [if_neg hy]
      refine ih _ ?_
      simp [List.nodup_append, h, hy]

/-- Adding an already-present source id changes nothing. -/
theorem mergeSources_self (src : List String) (t : String) (h : t ∈ src) :
    mergeSources src [t] = src := by
  simp [mergeSources, h]

/-- The names bound in an accumulator. -/
def serverKeys (m : List (String × McpServer)) : List String :=
  m.map (fun kv => kv.1)

/-- A record with its source attribution erased: the part of a record
the merge must never overwrite. -/
def sansSources (r : McpServer) : McpServer := { r with sources := [] }

/-- How many records the accumulator holds under one name. -/
def countName (m : List (String × McpServer)) (n : String) : Nat :=
  (m.filter (fun kv => kv.1 = n)).length

/-- In-place update keeps the key list. -/
theorem serverKeys_updateServer (m : List (String × McpServer)) (nm : String)
    (f : McpServer → McpServer) :
    serverKeys (updateServer m nm f) = serverKeys m := by
  induction m with
  | nil => rfl
  | cons kv rest ih =>
    rcases kv with ⟨k, v⟩
    by_cases hk : k = nm <;> simp [updateServer, hk, serverKeys, serverKeys_updateServer, ih] <;>
      simpa [serverKeys] using ih

/-- A name is unbound exactly when absent from the key list. -/
theorem lookupServer_eq_none_iff (m : List (String × McpServer)) (n : String) :
    lookupServer m n = none ↔ n ∉ serverKeys m := by
  induction m with
  | nil => simp [lookupServer_nil, serverKeys]
  | cons kv rest ih =>
    rcases kv with ⟨k, v⟩
    by_cases h : k = n <;> simp [lookupServer_cons, h, serverKeys, ih] <;> tauto

/-- One merge step keeps keys duplicate-free. -/
theorem keys_mergeOne_nodup (m : List (String × McpServer)) (nm : String)
    (srv : McpServer) (h : (serverKeys m).Nodup) :
    (serverKeys (mergeOne m nm srv)).Nodup := by
  simp only [mergeOne]
  cases hl : lookupServer m nm with
  | some ex => rw [serverKeys_updateServer]; exact h
  | none =>
    have hnm : nm ∉ serverKeys m := (lookupServer_eq_none_iff m nm).mp hl
    simp [serverKeys, List.nodup_append]
    exact ⟨by simpa [serverKeys] using h, by simpa [serverKeys] using hnm⟩

/-- Folding a target keeps keys duplicate-free. -/
theorem keys_mergeInto_nodup (s : List (String × McpServer))
    (m : List (String × McpServer)) (h : (serverKeys m).Nodup) :
    (serverKeys (mergeInto m s)).Nodup := by
  induction s generalizing m with
  | nil => exact h
  | cons p rest ih =>
    simp only [mergeInto, List.foldl_cons] at ih ⊢
    exact ih _ (keys_mergeOne_nodup m p.1 p.2 h)

/-- Duplicate-free keys and a successful lookup mean exactly one
record under the name. -/
theorem countName_eq_one (m : List (String × McpServer)) (n : String) (r : McpServer)
    (hk : (serverKeys m).Nodup) (hl : lookupServer m n = some r) :
    countName m n = 1 := by
  induction m with
  | nil => cases hl
  | cons kv rest ih =>
    rcases kv with ⟨k, v⟩
    simp only [serverKeys, List.map_cons, List.nodup_cons] at hk
    by_cases h : k = n
    · subst h
      have hrest : lookupServer rest k = none := by
        rw [lookupServer_eq_none_iff]
        simpa [serverKeys] using hk.1
      have : countName rest k = 0 := by
        simp only [countName, List.length_eq_zero, List.filter_eq_nil_iff]
        intro kv hkv
        simp only [decide_eq_true_eq]
        intro he
        exact (lookupServer_eq_none_iff rest k).mp hrest
          (by simpa [serverKeys, ← he] using List.mem_map_of_mem (fun kv => kv.1) hkv)
      simp [countName, List.filter, this, countName] at this ⊢
      simpa [countName] using this
    · rw [lookupServer_cons, if_neg h] at hl
      have := ih (by simpa [serverKeys] using hk.2) hl
      simpa [countName, List.filter, h] using this

/-- A target without the name never introduces it. -/
theorem mergeInto_none (s m : List (String × McpServer)) (n : String)
    (hm : lookupServer m n = none) (hs : lookupServer s n = none) :
    lookupServer (mergeInto m s) n = none := by
  induction s generalizing m with
  | nil => exact hm
  | cons p rest ih =>
    rcases p with ⟨nm, srv⟩
    rw [lookupServer_cons] at hs
    by_cases h : nm = n
    · rw [if_pos h] at hs; cases hs
    · rw [if_neg h] at hs
      simp only [mergeInto, List.foldl_cons]
      refine ih _ ?_ hs
      rw [lookupServer_mergeOne, if_neg h]
      exact hm

/-- A later target whose records all carry its own source id leaves an
accumulated record already attributed to that id entirely unchanged. -/
theorem mergeInto_keep (s : List (String × McpServer)) (tname n : String)
    (m : List (String × McpServer)) (r : McpServer)
    (hm : lookupServer m n = some r) (ht : tname ∈ r.sources)
    (hsrc : ∀ p ∈ s, (p : String × McpServer).2.sources = [tname]) :
    lookupServer (mergeInto m s) n = some r := by
  induction s generalizing m with
  | nil => exact hm
  | cons p rest ih =>
    rcases p with ⟨nm, srv⟩
    simp only [mergeInto, List.foldl_cons]
    have hsrv : srv.sources = [tname] := hsrc (nm, srv) (List.mem_cons_self _ _)
    refine ih _ ?_ (fun p hp => hsrc p (List.mem_cons_of_mem _ hp))
    rw [lookupServer_mergeOne]
    by_cases h : nm = n
    · rw [if_pos h, hm, hsrv]
      dsimp only
      rw [mergeSources_self r.sources tname ht]
    · rw [if_neg h]; exact hm

/-- The first target containing a name inserts its decoded record
as-is. -/
theorem mergeInto_insert (s : List (String × McpServer)) (tname n : String)
    (m : List (String × McpServer)) (r : McpServer)
    (hm : lookupServer m n = none) (hs : lookupServer s n = some r)
    (hsrc : ∀ p ∈ s, (p : String × McpServer).2.sources = [tname]) :
    lookupServer (mergeInto m s) n = some r := by
  induction s generalizing m with
  | nil => cases hs
  | cons p rest ih =>
    rcases p with ⟨nm, srv⟩
    simp only [mergeInto, List.foldl_cons]
    rw [lookupServer_cons] at hs
    have hsrv : srv.sources = [tname] := hsrc (nm, srv) (List.mem_cons_self _ _)
    by_cases h : nm = n
    · rw [if_pos h] at hs
      have hsr : srv = r := Option.some.inj hs
      have hm1 : lookupServer (mergeOne m nm srv) n = some r := by
        rw [lookupServer_mergeOne, if_pos h, hm]
        dsimp only
        rw [hsr]
      refine mergeInto_keep rest tname n _ r hm1 ?_
        (fun p hp => hsrc p (List.mem_cons_of_mem _ hp))
      rw [← hsr, hsrv]
      exact List.mem_singleton_self tname
    · rw [if_neg h] at hs
      refine ih _ ?_ hs (fun p hp => hsrc p (List.mem_cons_of_mem _ hp))
      rw [lookupServer_mergeOne, if_neg h]
      exact hm

/-- Later merges never change any field but `sources`, only extend
`sources`, and keep it duplicate-free. -/
theorem mergeInto_mono (s m : List (String × McpServer)) (n : String) (r : McpServer)
    (hm : lookupServer m n = some r) :
    ∃ r2, lookupServer (mergeInto m s) n = some r2
      ∧ sansSources r2 = sansSources r
      ∧ (∀ x ∈ r.sources, x ∈ r2.sources)
      ∧ (r.sources.Nodup → r2.sources.Nodup) := by
  induction s generalizing m r with
  | nil => exact ⟨r, hm, rfl, fun x hx => hx, fun h => h⟩
  | cons p rest ih =>
    rcases p with ⟨nm, srv⟩
    simp only [mergeInto, List.foldl_cons]
    by_cases h : nm = n
    · have hm1 : lookupServer (mergeOne m nm srv) n
          = some { r with sources := mergeSources r.sources srv.sources } := by
        rw [lookupServer_mergeOne, if_pos h, hm]
      obtain ⟨r2, h1, h2, h3, h4⟩ := ih _ _ hm1
      refine ⟨r2, h1, by rw [h2]; rfl, ?_, ?_⟩
      · intro x hx
        exact h3 x ((mem_mergeSources r.sources srv.sources x).mpr (Or.inl hx))
      · intro hnd
        exact h4 (nodup_mergeSources r.sources srv.sources hnd)
    · have hm1 : lookupServer (mergeOne m nm srv) n = some r := by
        rw [lookupServer_mergeOne, if_neg h]
        exact hm
      exact ih _ _ hm1

/-- A later duplicate contributes exactly its source id. -/
theorem mergeInto_adds (s : List (String × McpServer)) (tname n : String)
    (m : List (String × McpServer)) (r rs : McpServer)
    (hm : lookupServer m n = some r) (hs : lookupServer s n = some rs)
    (hsrc : ∀ p ∈ s, (p : String × McpServer).2.sources = [tname]) :
    ∃ r2, lookupServer (mergeInto m s) n = some r2
      ∧ sansSources r2 = sansSources r
      ∧ tname ∈ r2.sources
      ∧ (∀ x ∈ r.sources, x ∈ r2.sources)
      ∧ (r.sources.Nodup → r2.sources.Nodup) := by
  induction s generalizing m r with
  | nil => cases hs
  | cons p rest ih =>
    rcases p with ⟨nm, srv⟩
    simp only [mergeInto, List.foldl_cons]
    rw [lookupServer_cons] at hs
    have hsrv : srv.sources = [tname] := hsrc (nm, srv) (List.mem_cons_self _ _)
    by_cases h : nm = n
    · have hm1 : lookupServer (mergeOne m nm srv) n
          = some { r with sources := mergeSources r.sources srv.sources } := by
        rw [lookupServer_mergeOne, if_pos h, hm]
      obtain ⟨r2, h1, h2, h3, h4⟩ := mergeInto_mono rest _ n _ hm1
      refine ⟨r2, h1, by rw [h2]; rfl, ?_, ?_, ?_⟩
      · refine h3 tname ?_
        rw [mem_mergeSources, hsrv]
        exact Or.inr (List.mem_singleton_self tname)
      · intro x hx
        exact h3 x ((mem_mergeSources r.sources srv.sources x).mpr (Or.inl hx))
      · intro hnd
        exact h4 (nodup_mergeSources r.sources srv.sources hnd)
    · rw [if_neg h] at hs
      have hm1 : lookupServer (mergeOne m nm srv) n = some r := by
        rw [lookupServer_mergeOne, if_neg h]
        exact hm
      exact ih _ _ hm1 hs (fun p hp => hsrc p (List.mem_cons_of_mem _ hp))

/-- Inversion for a successful `Except` bind. -/
theorem except_bind_ok {α β : Type} (x : Except String α) (f : α → Except String β)
    (b : β) (h : (x >>= f) = .ok b) : ∃ a, x = .ok a ∧ f a = .ok b := by
  cases x with
  | error e => simp [Bind.bind, Except.bind] at h
  | ok a => exact ⟨a, rfl, by simpa [Bind.bind, Except.bind] using h⟩

/-- Every decoded record is attributed to the target it came from. -/
theorem to_canonical_sources (nm : String) (entry : List (String × Json))
    (t : TargetConfig) (srv : McpServer)
    (hok : _to_canonical nm entry t = .ok srv) : srv.sources = [t.name] := by
  unfold _to_canonical at hok
  by_cases hf : t.format_type = FormatType.opencode
  · rw [if_pos hf] at hok
    obtain ⟨v1, _, hok⟩ := except_bind_ok _ _ _ hok
    obtain ⟨v2, _, hok⟩ := except_bind_ok _ _ _ hok
    obtain ⟨v3, _, hok⟩ := except_bind_ok _ _ _ hok
    obtain ⟨v4, _, hok⟩ := except_bind_ok _ _ _ hok
    obtain ⟨v5, _, hok⟩ := except_bind_ok _ _ _ hok
    cases hok
    rfl
  · rw [if_neg hf] at hok
    obtain ⟨v1, _, hok⟩ := except_bind_ok _ _ _ hok
    obtain ⟨v2, _, hok⟩ := except_bind_ok _ _ _ hok
    obtain ⟨v3, _, hok⟩ := except_bind_ok _ _ _ hok
    obtain ⟨v4, _, hok⟩ := except_bind_ok _ _ _ hok
    obtain ⟨v5, _, hok⟩ := except_bind_ok _ _ _ hok
    obtain ⟨v6, _, hok⟩ := except_bind_ok _ _ _ hok
    cases hok
    rfl

/-- All records of a decoded mapping carry the target id. -/
theorem decodeEntries_sources (t : TargetConfig) (entries : List (String × Json))
    (s : List (String × McpServer)) (hok : decodeEntries t entries = .ok s) :
    ∀ p ∈ s, (p : String × McpServer).2.sources = [t.name] := by
  induction entries generalizing s with
  | nil =>
    cases hok
    intro p hp
    cases hp
  | cons kv rest ih =>
    rcases kv with ⟨nm, v⟩
    cases v with
    | obj fields =>
      simp only [decodeEntries, Bind.bind, Except.bind] at hok
      cases hc : _to_canonical nm fields t with
      | error e => rw [hc] at hok; cases hok
      | ok srv =>
        rw [hc] at hok
        cases hd : decodeEntries t rest with
        | error e => rw [hd] at hok; cases hok
        | ok tail =>
          rw [hd] at hok
          cases hok
          intro p hp
          rcases List.mem_cons.mp hp with hp | hp
          · rw [hp]
            exact to_canonical_sources nm fields t srv hc
          · exact ih tail hd p hp
    | null => exact ih s hok
    | bool b => exact ih s hok
    | num x => exact ih s hok
    | str x => exact ih s hok
    | arr xs => exact ih s hok

/-- All records read from one target carry that target id. -/
theorem read_sources (fs : Fs) (t : TargetConfig) (pd : Option String)
    (s : List (String × McpServer)) (hok : read_target_servers fs t pd = .ok s) :
    ∀ p ∈ s, (p : String × McpServer).2.sources = [t.name] := by
  simp only [read_target_servers, Bind.bind, Except.bind] at hok
  cases hr : _read_config fs (_resolve_path t pd)
      (decide (t.format_type = FormatType.yaml)) with
  | error e => rw [hr] at hok; cases hok
  | ok data =>
    rw [hr] at hok
    dsimp only at hok
    rcases hlu : lookupKey data t.root_key with _ | v
    · rw [hlu] at hok
      dsimp only at hok
      exact decodeEntries_sources t [] s hok
    · rw [hlu] at hok
      cases v with
      | obj fields =>
        dsimp only at hok
        exact decodeEntries_sources t fields s hok
      | null => dsimp only at hok; cases hok
      | bool b => dsimp only at hok; cases hok
      | num x => dsimp only at hok; cases hok
      | str x => dsimp only at hok; cases hok
      | arr xs => dsimp only at hok; cases hok

/-- Scanning targets that never contain the name leaves it unbound. -/
theorem discoverTargets_none (fs : Fs) (pd : Option String) (n : String) :
    ∀ (ts : List TargetConfig) (m : List (String × McpServer)),
    (∀ t ∈ ts, ∀ s, read_target_servers fs t pd = .ok s → lookupServer s n = none) →
    lookupServer m n = none →
    lookupServer (ts.foldl (fun merged target =>
      match read_target_servers fs target pd with
      | .error _ => merged
      | .ok servers => mergeInto merged servers) m) n = none := by
  intro ts
  induction ts with
  | nil => exact fun m _ hm => hm
  | cons t rest ih =>
    intro m hts hm
    simp only [List.foldl_cons]
    refine ih _ (fun t2 h2 => hts t2 (List.mem_cons_of_mem _ h2)) ?_
    cases hr : read_target_servers fs t pd with
    | error e => exact hm
    | ok s =>
      exact mergeInto_none s m n hm (hts t (List.mem_cons_self _ _) s hr)

/-- Scanning further targets preserves a bound record up to source
accumulation. -/
theorem discoverTargets_mono (fs : Fs) (pd : Option String) (n : String) :
    ∀ (ts : List TargetConfig) (m : List (String × McpServer)) (r : McpServer),
    lookupServer m n = some r →
    ∃ r2, lookupServer (ts.foldl (fun merged target =>
        match read_target_servers fs target pd with
        | .error _ => merged
        | .ok servers => mergeInto merged servers) m) n = some r2
      ∧ sansSources r2 = sansSources r
      ∧ (∀ x ∈ r.sources, x ∈ r2.sources)
      ∧ (r.sources.Nodup → r2.sources.Nodup) := by
  intro ts
  induction ts with
  | nil => exact fun m r hm => ⟨r, hm, rfl, fun x hx => hx, fun h => h⟩
  | cons t rest ih =>
    intro m r hm
    simp only [List.foldl_cons]
    cases hr : read_target_servers fs t pd with
    | error e => exact ih m r hm
    | ok s =>
      obtain ⟨r1, h1, h2, h3, h4⟩ := mergeInto_mono s m n r hm
      obtain ⟨r2, g1, g2, g3, g4⟩ := ih _ r1 h1
      exact ⟨r2, g1, by rw [g2, h2], fun x hx => g3 x (h3 x hx), fun h => g4 (h4 h)⟩

/-- The scan never binds a name twice. -/
theorem keys_discoverTargets_nodup (fs : Fs) (pd : Option String) :
    ∀ (ts : List TargetConfig) (m : List (String × McpServer)),
    (serverKeys m).Nodup →
    (serverKeys (ts.foldl (fun merged target =>
      match read_target_servers fs target pd with
      | .error _ => merged
      | .ok servers => mergeInto merged servers) m)).Nodup := by
  intro ts
  induction ts with
  | nil => exact fun m hm => hm
  | cons t rest ih =>
    intro m hm
    simp only [List.foldl_cons]
    refine ih _ ?_
    cases hr : read_target_servers fs t pd with
    | error e => exact hm
    | ok s => exact keys_mergeInto_nodup s m hm

/-- A successful lookup exhibits a member. -/
theorem lookupServer_mem (s : List (String × McpServer)) (n : String) (r : McpServer)
    (h : lookupServer s n = some r) : (n, r) ∈ s := by
  induction s with
  | nil => cases h
  | cons kv rest ih =>
    rcases kv with ⟨k, v⟩
    rw [lookupServer_cons] at h
    by_cases hk : k = n
    · rw [if_pos hk] at h
      obtain rfl : v = r := Option.some.inj h
      subst hk
      exact List.mem_cons_self _ _
    · rw [if_neg hk] at h
      exact List.mem_cons_of_mem _ (ih h)

/-- The discovery scan started from an arbitrary accumulator (the
source's loop body, initial value abstracted). -/
def discoverFrom (fs : Fs) (pd : Option String) (m : List (String × McpServer))
    (ts : List TargetConfig) : List (String × McpServer) :=
  ts.foldl (fun merged target =>
    match read_target_servers fs target pd with
    | .error _ => merged
    | .ok servers => mergeInto merged servers) m

/-- The scan splits over list concatenation. -/
theorem discoverFrom_append (fs : Fs) (pd : Option String)
    (m : List (String × McpServer)) (a b : List TargetConfig) :
    discoverFrom fs pd m (a ++ b) = discoverFrom fs pd (discoverFrom fs pd m a) b := by
  simp [discoverFrom, List.foldl_append]

/-- One step of the scan. -/
theorem discoverFrom_cons (fs : Fs) (pd : Option String)
    (m : List (String × McpServer)) (t : TargetConfig) (ts : List TargetConfig) :
    discoverFrom fs pd m (t :: ts) =
      discoverFrom fs pd
        (match read_target_servers fs t pd with
         | .error _ => m
         | .ok servers => mergeInto m servers) ts := rfl

/-- C1 (amended): for a pair of targets in registry order both
containing the name with different commands, provided no earlier target
in the scope also contains it, discovery returns exactly one record
under the name, every field except `sources` equals the first (of the
pair) target record, and `sources` contains both target ids without
duplicates. -/
theorem c1_first_writer_wins (scope : Scope) (pd : Option String) (fs : Fs)
    (pre mid post : List TargetConfig) (ti tj : TargetConfig) (n : String)
    (si sj : List (String × McpServer)) (ri rj : McpServer)
    (hsplit : get_targets_by_scope scope = pre ++ ti :: (mid ++ tj :: post))
    (hri : read_target_servers fs ti pd = .ok si)
    (hlui : lookupServer si n = some ri)
    (hrj : read_target_servers fs tj pd = .ok sj)
    (hluj : lookupServer sj n = some rj)
    (hcmd : ri.command ≠ rj.command)
    (hfirst : ∀ t ∈ pre, ∀ s, read_target_servers fs t pd = .ok s →
        lookupServer s n = none) :
    countName (discover_all_servers fs scope pd) n = 1
  ∧ ∃ r, lookupServer (discover_all_servers fs scope pd) n = some r
      ∧ sansSources r = sansSources ri
      ∧ ti.name ∈ r.sources ∧ tj.name ∈ r.sources ∧ r.sources.Nodup := by
  have hsi_src := read_sources fs ti pd si hri
  have hsj_src := read_sources fs tj pd sj hrj
  have hri_src : ri.sources = [ti.name] := hsi_src (n, ri) (lookupServer_mem si n ri hlui)
  have e0 : discover_all_servers fs scope pd
      = discoverFrom fs pd [] (pre ++ ti :: (mid ++ tj :: post)) := by
    unfold discover_all_servers discoverTargets discoverFrom
    rw [hsplit]
  have e1 : discoverFrom fs pd [] (pre ++ ti :: (mid ++ tj :: post))
      = discoverFrom fs pd
          (mergeInto (discoverFrom fs pd [] pre) si) (mid ++ tj :: post) := by
    rw [discoverFrom_append, discoverFrom_cons, hri]
  have e2 : discoverFrom fs pd (mergeInto (discoverFrom fs pd [] pre) si)
        (mid ++ tj :: post)
      = discoverFrom fs pd
          (mergeInto (discoverFrom fs pd
            (mergeInto (discoverFrom fs pd [] pre) si) mid) sj) post := by
    rw [discoverFrom_append, discoverFrom_cons, hrj]
  have hm0 : lookupServer (discoverFrom fs pd [] pre) n = none :=
    discoverTargets_none fs pd n pre [] hfirst rfl
  have hm1 : lookupServer (mergeInto (discoverFrom fs pd [] pre) si) n = some ri :=
    mergeInto_insert si ti.name n _ ri hm0 hlui hsi_src
  obtain ⟨r2, h2l, h2c, h2m, h2n⟩ :=
    discoverTargets_mono fs pd n mid (mergeInto (discoverFrom fs pd [] pre) si) ri hm1
  obtain ⟨r3, h3l, h3c, h3tj, h3m, h3n⟩ :=
    mergeInto_adds sj tj.name n _ r2 rj h2l hluj hsj_src
  obtain ⟨r4, h4l, h4c, h4m, h4n⟩ := discoverTargets_mono fs pd n post _ r3 h3l
  have hM : lookupServer (discover_all_servers fs scope pd) n = some r4 := by
    rw [e0, e1, e2]
    exact h4l
  have hkeys : (serverKeys (discover_all_servers fs scope pd)).Nodup := by
    rw [e0]
    exact keys_discoverTargets_nodup fs pd (pre ++ ti :: (mid ++ tj :: post)) []
      List.nodup_nil
  refine ⟨countName_eq_one _ n r4 hkeys hM, r4, hM, ?_, ?_, ?_, ?_⟩
  · rw [h4c, h3c, h2c]
  · refine h4m _ (h3m _ (h2m _ ?_))
    rw [hri_src]
    exact List.mem_singleton_self ti.name
  · exact h4m _ h3tj
  · refine h4n (h3n (h2n ?_))
    rw [hri_src]
    exact List.nodup_singleton ti.name

def claudeDesktopGlobal : TargetConfig :=
  { name := "claude_desktop_global", display_name := "Claude Desktop",
    config_path := "~/Library/Application Support/Claude/claude_desktop_config.json",
    root_key := "mcpServers", scope := .global, color := "#D97757",
    base_target := "claude_desktop", category := .desktop }

def claudeCodeGlobal : TargetConfig :=
  { name := "claude_code_global", display_name := "Claude Code",
    config_path := "~/.claude.json", root_key := "mcpServers", scope := .global,
    color := "#D97757", base_target := "claude_code", category := .cli }

def antigravityGlobal : TargetConfig :=
  { name := "antigravity_global", display_name := "Antigravity",
    config_path := "~/.gemini/antigravity/mcp_config.json", root_key := "mcpServers",
    scope := .global, color := "#4285F4", base_target := "antigravity" }

def c1Fs : Fs :=
  { files := fun p =>
      if p = "/home/user/Library/Application Support/Claude/claude_desktop_config.json" then
        FileState.parsed [("mcpServers", Json.obj [("demo", Json.obj [("command", Json.str "a")])])]
      else if p = "/home/user/.claude.json" then
        FileState.parsed [("mcpServers", Json.obj [("demo", Json.obj [("command", Json.str "b")])])]
      else if p = "/home/user/.gemini/antigravity/mcp_config.json" then
        FileState.parsed [("mcpServers", Json.obj [("demo", Json.obj [("command", Json.str "c")])])]
      else FileState.missing,
    now := "20240101_120000", copyFails := fun _ => false, writeFails := fun _ => false }

def c1RecA : McpServer :=
  { name := "demo", command := some "a", sources := ["claude_desktop_global"] }

def c1RecB : McpServer :=
  { name := "demo", command := some "b", sources := ["claude_code_global"] }

def c1RecC : McpServer :=
  { name := "demo", command := some "c", sources := ["antigravity_global"] }

/-- C1 (counterexample): with three global targets all containing
"demo" (commands "a", "b", "c"), the pair (claude_code_global,
antigravity_global) satisfies the claim hypotheses, yet the merged
record keeps command "a" from the earlier claude_desktop_global — not
the pair-first target decoded value "b" the claim asserts. -/
theorem c1_counterexample :
    (get_targets_by_scope .global
       = GLOBAL_TARGETS.take 1
           ++ claudeCodeGlobal :: ([] ++ antigravityGlobal :: GLOBAL_TARGETS.drop 3))
  ∧ (read_target_servers c1Fs claudeCodeGlobal none = .ok [("demo", c1RecB)])
  ∧ (lookupServer [("demo", c1RecB)] "demo" = some c1RecB)
  ∧ (read_target_servers c1Fs antigravityGlobal none = .ok [("demo", c1RecC)])
  ∧ (lookupServer [("demo", c1RecC)] "demo" = some c1RecC)
  ∧ (c1RecB.command ≠ c1RecC.command)
  ∧ ((lookupServer (discover_all_servers c1Fs .global none) "demo").map
       (fun r => r.command) = some (some "a"))
  ∧ (some (some "a") ≠ some c1RecB.command) :=
  ⟨rfl, rfl, rfl, rfl, rfl, by decide, rfl, by decide⟩

/-- C1 (witness): the amended statement evaluated on the first two
global registry targets. -/
theorem c1_witness :
    (get_targets_by_scope .global
       = [] ++ claudeDesktopGlobal :: ([] ++ claudeCodeGlobal :: GLOBAL_TARGETS.drop 2))
  ∧ (read_target_servers c1Fs claudeDesktopGlobal none = .ok [("demo", c1RecA)])
  ∧ (read_target_servers c1Fs claudeCodeGlobal none = .ok [("demo", c1RecB)])
  ∧ (c1RecA.command ≠ c1RecB.command)
  ∧ (countName (discover_all_servers c1Fs .global none) "demo" = 1
    ∧ ∃ r, lookupServer (discover_all_servers c1Fs .global none) "demo" = some r
        ∧ sansSources r = sansSources c1RecA
        ∧ claudeDesktopGlobal.name ∈ r.sources ∧ claudeCodeGlobal.name ∈ r.sources
        ∧ r.sources.Nodup) :=
  ⟨rfl, rfl, rfl, by decide,
    c1_first_writer_wins .global none c1Fs [] [] (GLOBAL_TARGETS.drop 2) claudeDesktopGlobal
      claudeCodeGlobal "demo" [("demo", c1RecA)] [("demo", c1RecB)] c1RecA c1RecB
      rfl rfl rfl rfl rfl (by decide)
      (fun t ht => absurd ht (List.not_mem_nil t))⟩


end OpenSync
